import Mathlib

/-!
Shallow embedding of `readerwriterlock/rwlock.py` (reversefold/pyReaderWriterLock).

The module defines three reader-writer lock variants (`RWLockRead`,
`RWLockWrite`, `RWLockFair`), each built from plain binary mutexes produced
by a user-supplied `lock_factory` (default `threading.Lock`) plus integer
counters.  Each variant exposes a reader guard and a writer guard with
`acquire(blocking, timeout) -> bool`, `release()`, `locked()` and the
context-manager pair `__enter__`/`__exit__`.

Modelling choices:
* Machine state is explicit: each lock variant has a state structure whose
  fields mirror the Python attributes (`read_count : Int`,
  one `Bool` per internal mutex meaning "currently held by this lock's
  protocol").
* The external binary mutexes come from `threading.Lock`, which is not part
  of this repository; their behaviour is taken from the documented contract
  (spec section 4.1).  An `Env` oracle supplies the outcome of every timed
  wait (modelling other threads and real time); a call can succeed only if
  the mutex is not already held on this side, an indefinite blocking wait on
  a free mutex always succeeds, and `time` is the stream of successive
  `time.time()` readings.
* Python's float timeouts and `time.time()` readings are modelled as `Int`:
  the code only ever compares, adds, subtracts and maxes these values, so any
  linearly ordered abelian group is faithful, and `Int` keeps every
  definition kernel-computable on concrete inputs.
* Every guard operation is a pure function from (guard flag, lock state,
  arguments, oracle, counter context) to an output record carrying the
  boolean result, the new guard flag, the new lock state, a trace of the
  mutex/counter events the code performed in order, and the advanced
  counters.  Exceptions (`raise RuntimeError`) are `Except.error`; an error
  is raised before any mutation, so the caller's state is unchanged.
-/

/-- Oracle for the external world: `grabBy i t` is the outcome of the
`i`-th underlying timed mutex wait when issued with a non-negative timeout
`t`, `grabNow i` the outcome of the `i`-th wait when it must return
immediately (non-blocking try), and `time i` the `i`-th reading of
`time.time()`. -/
structure Env where
  grabNow : Nat → Bool
  grabBy : Nat → Int → Bool
  time : Nat → Int

/-- Modelled from the spec: section 4.1 contract of the external binary
mutex (`threading.Lock`), where `acquire(True, 0)` ("wait at most 0
seconds") and `acquire(False, _)` ("try-acquire; returns immediately") both
return immediately with the same outcome. -/
def Env.contract (env : Env) : Prop :=
  ∀ i, env.grabBy i 0 = env.grabNow i

/-- Counters threaded through a run: `ci` indexes underlying mutex waits,
`ti` indexes `time.time()` readings. -/
structure Ctx where
  ci : Nat
  ti : Nat
deriving DecidableEq, Repr

/-- Names of the internal mutexes appearing across the three variants. -/
inductive MName where
  | lock_read_count
  | resource
  | lock_read_entry
  | lock_read_try
  | lock_write_count
  | lock_read
  | lock_write
deriving DecidableEq, Repr

/-- Names of the integer counters. -/
inductive CName where
  | read_count
  | write_count
deriving DecidableEq, Repr

/-- One observable event of a guard operation, in program order:
a mutex acquire attempt (with the timeout value passed to the underlying
mutex and its outcome), a mutex release, or a counter increment/decrement. -/
inductive Ev where
  | acq (m : MName) (timeout : Int) (ok : Bool)
  | rel (m : MName)
  | inc (c : CName)
  | dec (c : CName)
deriving DecidableEq, Repr

/-- An event with the timeout value erased; used to talk about the order of
operations independently of the clock. -/
inductive EvShape where
  | acq (m : MName) (ok : Bool)
  | rel (m : MName)
  | inc (c : CName)
  | dec (c : CName)
deriving DecidableEq, Repr

def Ev.shape : Ev → EvShape
  | .acq m _ ok => .acq m ok
  | .rel m => .rel m
  | .inc c => .inc c
  | .dec c => .dec c

/-- The order-erased trace of a run. -/
def trShape (tr : List Ev) : List EvShape := tr.map Ev.shape

/-- The timeout values passed to the underlying mutexes, in order. -/
def acqTimeouts (tr : List Ev) : List Int :=
  tr.filterMap fun e =>
    match e with
    | .acq _ t _ => some t
    | _ => none

/-- Line 29 (and its copies): `timeout = None if (blocking and timeout < 0)
else (timeout if blocking else 0)`. -/
def normTimeout (blocking : Bool) (timeout : Int) : Option Int :=
  if blocking = true ∧ timeout < 0 then none
  else some (if blocking = true then timeout else 0)

/-- Line 30 (and its copies): `deadline = None if timeout is None else
(time.time() + timeout)`; reads the clock exactly when the normalized
timeout is not `None`. -/
def mkDeadline (env : Env) (c : Ctx) (blocking : Bool) (timeout : Int) :
    Option Int × Ctx :=
  match normTimeout blocking timeout with
  | none => (none, c)
  | some t => (some (env.time c.ti + t), ⟨c.ci, c.ti + 1⟩)

/-- The expression `-1 if deadline is None else max(0, deadline -
time.time())` appearing at every internal sub-acquire; reads the clock
exactly when the deadline is not `None`. -/
def subTimeout (env : Env) (dl : Option Int) (c : Ctx) : Int × Ctx :=
  match dl with
  | none => (-1, c)
  | some d => (max 0 (d - env.time c.ti), ⟨c.ci, c.ti + 1⟩)

/-- Modelled from the spec: section 4.1 contract of the external binary
mutex (`threading.Lock`), from the perspective of one call.  `held` is
whether this lock's protocol already holds the mutex (in which case the
call cannot succeed; an indefinite wait there would deadlock, which we
render as failure).  Otherwise a non-blocking call asks `grabNow`, a
blocking call with negative timeout always succeeds, and a blocking call
with a non-negative timeout asks `grabBy`. -/
def mutexAcquire (env : Env) (ci : Nat) (held : Bool) (blocking : Bool)
    (timeout : Int) : Bool :=
  !held && (if !blocking then env.grabNow ci
            else if timeout < 0 then true
            else env.grabBy ci timeout)

/-- One internal sub-acquire of a multi-stage `acquire`: compute the
remaining budget from the deadline, issue the blocking call, and advance the
counters. -/
def subAcq (env : Env) (dl : Option Int) (held : Bool) (c : Ctx) :
    Bool × Int × Ctx :=
  let p := subTimeout env dl c
  (mutexAcquire env p.2.ci held true p.1, p.1, ⟨p.2.ci + 1, p.2.ti⟩)

/-- Result of a guard `acquire` (or `__enter__`): the returned boolean, the
new `_locked` flag, the new lock state, the event trace, and the advanced
counters. -/
structure Out (L : Type) where
  ok : Bool
  locked : Bool
  lock : L
  tr : List Ev
  c : Ctx
deriving DecidableEq, Repr

/-- Result of a successful guard `release`: the new `_locked` flag, the new
lock state, and the event trace. -/
structure ROut (L : Type) where
  locked : Bool
  lock : L
  tr : List Ev
deriving DecidableEq, Repr

/-- Source `locked()` of every guard: returns the `_locked` flag. -/
def lockedMethod (locked0 : Bool) : Bool := locked0

namespace RWLockRead

/-- State of `RWLockRead` (lines 16-20): a reader counter and two mutexes. -/
structure LockSt where
  read_count : Int
  resource : Bool
  lock_read_count : Bool
deriving DecidableEq, Repr

/-- Source `RWLockRead.__init__`: counter 0, both mutexes free. -/
def init : LockSt := ⟨0, false, false⟩

namespace _aReader

/-- Source `RWLockRead._aReader.acquire` (lines 27-47). -/
def acquire (env : Env) (locked0 : Bool) (l : LockSt) (blocking : Bool)
    (timeout : Int) (c : Ctx) : Out LockSt :=
  let dc := mkDeadline env c blocking timeout
  let dl := dc.1
  let a1 := subAcq env dl l.lock_read_count dc.2
  if !a1.1 then
    ⟨false, locked0, l, [.acq .lock_read_count a1.2.1 false], a1.2.2⟩
  else
    let l1 : LockSt :=
      { l with lock_read_count := true, read_count := l.read_count + 1 }
    let tr1 : List Ev := [.acq .lock_read_count a1.2.1 true, .inc .read_count]
    if l1.read_count = 1 then
      let a2 := subAcq env dl l1.resource a1.2.2
      if !a2.1 then
        ⟨false, locked0,
          { l1 with read_count := l1.read_count - 1, lock_read_count := false },
          tr1 ++ [.acq .resource a2.2.1 false, .dec .read_count,
                  .rel .lock_read_count], a2.2.2⟩
      else
        ⟨true, true, { l1 with resource := true, lock_read_count := false },
          tr1 ++ [.acq .resource a2.2.1 true, .rel .lock_read_count], a2.2.2⟩
    else
      ⟨true, true, { l1 with lock_read_count := false },
        tr1 ++ [.rel .lock_read_count], a1.2.2⟩

/-- Source `RWLockRead._aReader.release` (lines 49-57); the `raise` happens before
any mutation, and `lock_read_count.acquire()` is an untimed blocking wait
(returns only once the mutex is held). -/
def release (locked0 : Bool) (l : LockSt) : Except String (ROut LockSt) :=
  if !locked0 then .error "cannot release un-acquired lock"
  else
    let l1 : LockSt :=
      { l with lock_read_count := true, read_count := l.read_count - 1 }
    let tr1 : List Ev := [.acq .lock_read_count (-1) true, .dec .read_count]
    if l1.read_count = 0 then
      .ok ⟨false, { l1 with resource := false, lock_read_count := false },
        tr1 ++ [.rel .resource, .rel .lock_read_count]⟩
    else
      .ok ⟨false, { l1 with lock_read_count := false },
        tr1 ++ [.rel .lock_read_count]⟩

/-- Source `RWLockRead._aReader.__enter__` (lines 63-64): `self.acquire()` with the
default arguments. -/
def enter (env : Env) (locked0 : Bool) (l : LockSt) (c : Ctx) : Out LockSt :=
  acquire env locked0 l true (-1) c

/-- Source `RWLockRead._aReader.__exit__` (lines 66-68): `self.release()` then
`return False`. -/
def exitScope (locked0 : Bool) (l : LockSt) :
    Except String (ROut LockSt × Bool) :=
  (release locked0 l).map (fun r => (r, false))

end _aReader

namespace _aWriter

/-- Source `RWLockRead._aWriter.acquire` (lines 75-78): passes `blocking` and
`timeout` straight to `resource.acquire` and assigns the result to
`_locked`. -/
def acquire (env : Env) (locked0 : Bool) (l : LockSt) (blocking : Bool)
    (timeout : Int) (c : Ctx) : Out LockSt :=
  let ok := mutexAcquire env c.ci l.resource blocking timeout
  ⟨ok, ok, if ok then { l with resource := true } else l,
    [.acq .resource timeout ok], ⟨c.ci + 1, c.ti⟩⟩

/-- Source `RWLockRead._aWriter.release` (lines 80-84). -/
def release (locked0 : Bool) (l : LockSt) : Except String (ROut LockSt) :=
  if !locked0 then .error "cannot release un-acquired lock"
  else .ok ⟨false, { l with resource := false }, [.rel .resource]⟩

/-- Source `RWLockRead._aWriter.__enter__` (lines 90-91). -/
def enter (env : Env) (locked0 : Bool) (l : LockSt) (c : Ctx) : Out LockSt :=
  acquire env locked0 l true (-1) c

/-- Source `RWLockRead._aWriter.__exit__` (lines 93-95). -/
def exitScope (locked0 : Bool) (l : LockSt) :
    Except String (ROut LockSt × Bool) :=
  (release locked0 l).map (fun r => (r, false))

end _aWriter

end RWLockRead

namespace RWLockWrite

/-- State of `RWLockWrite` (lines 109-117): two counters and five mutexes. -/
structure LockSt where
  read_count : Int
  write_count : Int
  lock_read_count : Bool
  lock_write_count : Bool
  lock_read_entry : Bool
  lock_read_try : Bool
  resource : Bool
deriving DecidableEq, Repr

/-- Source `RWLockWrite.__init__`: counters 0, all mutexes free. -/
def init : LockSt := ⟨0, 0, false, false, false, false, false⟩

namespace _aReader

/-- Source `RWLockWrite._aReader.acquire` (lines 124-161). -/
def acquire (env : Env) (locked0 : Bool) (l : LockSt) (blocking : Bool)
    (timeout : Int) (c : Ctx) : Out LockSt :=
  let dc := mkDeadline env c blocking timeout
  let dl := dc.1
  let aE := subAcq env dl l.lock_read_entry dc.2
  if !aE.1 then
    ⟨false, locked0, l, [.acq .lock_read_entry aE.2.1 false], aE.2.2⟩
  else
    let lE : LockSt := { l with lock_read_entry := true }
    let trE : List Ev := [.acq .lock_read_entry aE.2.1 true]
    let aT := subAcq env dl lE.lock_read_try aE.2.2
    if !aT.1 then
      ⟨false, locked0, { lE with lock_read_entry := false },
        trE ++ [.acq .lock_read_try aT.2.1 false, .rel .lock_read_entry],
        aT.2.2⟩
    else
      let lT : LockSt := { lE with lock_read_try := true }
      let trT := trE ++ [.acq .lock_read_try aT.2.1 true]
      let aC := subAcq env dl lT.lock_read_count aT.2.2
      if !aC.1 then
        ⟨false, locked0,
          { lT with lock_read_try := false, lock_read_entry := false },
          trT ++ [.acq .lock_read_count aC.2.1 false, .rel .lock_read_try,
                  .rel .lock_read_entry], aC.2.2⟩
      else
        let lC : LockSt :=
          { lT with lock_read_count := true, read_count := lT.read_count + 1 }
        let trC := trT ++ [.acq .lock_read_count aC.2.1 true, .inc .read_count]
        if lC.read_count = 1 then
          let aR := subAcq env dl lC.resource aC.2.2
          if !aR.1 then
            ⟨false, locked0,
              { lC with lock_read_try := false, lock_read_entry := false,
                        read_count := lC.read_count - 1,
                        lock_read_count := false },
              trC ++ [.acq .resource aR.2.1 false, .rel .lock_read_try,
                      .rel .lock_read_entry, .dec .read_count,
                      .rel .lock_read_count], aR.2.2⟩
          else
            ⟨true, true,
              { lC with resource := true, lock_read_count := false,
                        lock_read_try := false, lock_read_entry := false },
              trC ++ [.acq .resource aR.2.1 true, .rel .lock_read_count,
                      .rel .lock_read_try, .rel .lock_read_entry], aR.2.2⟩
        else
          ⟨true, true,
            { lC with lock_read_count := false, lock_read_try := false,
                      lock_read_entry := false },
            trC ++ [.rel .lock_read_count, .rel .lock_read_try,
                    .rel .lock_read_entry], aC.2.2⟩

/-- Source `RWLockWrite._aReader.release` (lines 163-171). -/
def release (locked0 : Bool) (l : LockSt) : Except String (ROut LockSt) :=
  if !locked0 then .error "cannot release un-acquired lock"
  else
    let l1 : LockSt :=
      { l with lock_read_count := true, read_count := l.read_count - 1 }
    let tr1 : List Ev := [.acq .lock_read_count (-1) true, .dec .read_count]
    if l1.read_count = 0 then
      .ok ⟨false, { l1 with resource := false, lock_read_count := false },
        tr1 ++ [.rel .resource, .rel .lock_read_count]⟩
    else
      .ok ⟨false, { l1 with lock_read_count := false },
        tr1 ++ [.rel .lock_read_count]⟩

/-- Source `RWLockWrite._aReader.__enter__` (lines 177-178). -/
def enter (env : Env) (locked0 : Bool) (l : LockSt) (c : Ctx) : Out LockSt :=
  acquire env locked0 l true (-1) c

/-- Source `RWLockWrite._aReader.__exit__` (lines 180-182). -/
def exitScope (locked0 : Bool) (l : LockSt) :
    Except String (ROut LockSt × Bool) :=
  (release locked0 l).map (fun r => (r, false))

end _aReader

namespace _aWriter

/-- Lines 207-219 of `RWLockWrite._aWriter.acquire`: release
`lock_write_count`, then try `resource`; on failure re-take
`lock_write_count` (untimed), decrement `write_count`, release
`lock_read_try` when the count reaches 0, release `lock_write_count`. -/
def acquireTail (env : Env) (dl : Option Int) (locked0 : Bool) (lT : LockSt)
    (trT : List Ev) (c : Ctx) : Out LockSt :=
  let lR : LockSt := { lT with lock_write_count := false }
  let trR := trT ++ [.rel .lock_write_count]
  let aR := subAcq env dl lR.resource c
  if !aR.1 then
    let lU : LockSt :=
      { lR with lock_write_count := true, write_count := lR.write_count - 1 }
    let trU := trR ++ [.acq .resource aR.2.1 false,
                       .acq .lock_write_count (-1) true, .dec .write_count]
    if lU.write_count = 0 then
      ⟨false, locked0,
        { lU with lock_read_try := false, lock_write_count := false },
        trU ++ [.rel .lock_read_try, .rel .lock_write_count], aR.2.2⟩
    else
      ⟨false, locked0, { lU with lock_write_count := false },
        trU ++ [.rel .lock_write_count], aR.2.2⟩
  else
    ⟨true, true, { lR with resource := true },
      trR ++ [.acq .resource aR.2.1 true], aR.2.2⟩

/-- Source `RWLockWrite._aWriter.acquire` (lines 189-219). -/
def acquire (env : Env) (locked0 : Bool) (l : LockSt) (blocking : Bool)
    (timeout : Int) (c : Ctx) : Out LockSt :=
  let dc := mkDeadline env c blocking timeout
  let dl := dc.1
  let aW := subAcq env dl l.lock_write_count dc.2
  if !aW.1 then
    ⟨false, locked0, l, [.acq .lock_write_count aW.2.1 false], aW.2.2⟩
  else
    let lW : LockSt :=
      { l with lock_write_count := true, write_count := l.write_count + 1 }
    let trW : List Ev :=
      [.acq .lock_write_count aW.2.1 true, .inc .write_count]
    if lW.write_count = 1 then
      let aT := subAcq env dl lW.lock_read_try aW.2.2
      if !aT.1 then
        ⟨false, locked0,
          { lW with write_count := lW.write_count - 1,
                    lock_write_count := false },
          trW ++ [.acq .lock_read_try aT.2.1 false, .dec .write_count,
                  .rel .lock_write_count], aT.2.2⟩
      else
        acquireTail env dl locked0 { lW with lock_read_try := true }
          (trW ++ [.acq .lock_read_try aT.2.1 true]) aT.2.2
    else
      acquireTail env dl locked0 lW trW aW.2.2

/-- Source `RWLockWrite._aWriter.release` (lines 221-230). -/
def release (locked0 : Bool) (l : LockSt) : Except String (ROut LockSt) :=
  if !locked0 then .error "cannot release un-acquired lock"
  else
    let l1 : LockSt :=
      { l with resource := false, lock_write_count := true,
               write_count := l.write_count - 1 }
    let tr1 : List Ev :=
      [.rel .resource, .acq .lock_write_count (-1) true, .dec .write_count]
    if l1.write_count = 0 then
      .ok ⟨false, { l1 with lock_read_try := false, lock_write_count := false },
        tr1 ++ [.rel .lock_read_try, .rel .lock_write_count]⟩
    else
      .ok ⟨false, { l1 with lock_write_count := false },
        tr1 ++ [.rel .lock_write_count]⟩

/-- Source `RWLockWrite._aWriter.__enter__` (lines 236-237). -/
def enter (env : Env) (locked0 : Bool) (l : LockSt) (c : Ctx) : Out LockSt :=
  acquire env locked0 l true (-1) c

/-- Source `RWLockWrite._aWriter.__exit__` (lines 239-241). -/
def exitScope (locked0 : Bool) (l : LockSt) :
    Except String (ROut LockSt × Bool) :=
  (release locked0 l).map (fun r => (r, false))

end _aWriter

end RWLockWrite

namespace RWLockFair

/-- State of `RWLockFair` (lines 255-260): a reader counter and three
mutexes. -/
structure LockSt where
  read_count : Int
  lock_read_count : Bool
  lock_read : Bool
  lock_write : Bool
deriving DecidableEq, Repr

/-- Source `RWLockFair.__init__`: counter 0, all mutexes free. -/
def init : LockSt := ⟨0, false, false, false⟩

namespace _aReader

/-- Source `RWLockFair._aReader.acquire` (lines 267-295). -/
def acquire (env : Env) (locked0 : Bool) (l : LockSt) (blocking : Bool)
    (timeout : Int) (c : Ctx) : Out LockSt :=
  let dc := mkDeadline env c blocking timeout
  let dl := dc.1
  let aR := subAcq env dl l.lock_read dc.2
  if !aR.1 then
    ⟨false, locked0, l, [.acq .lock_read aR.2.1 false], aR.2.2⟩
  else
    let lR : LockSt := { l with lock_read := true }
    let trR : List Ev := [.acq .lock_read aR.2.1 true]
    let aC := subAcq env dl lR.lock_read_count aR.2.2
    if !aC.1 then
      ⟨false, locked0, { lR with lock_read := false },
        trR ++ [.acq .lock_read_count aC.2.1 false, .rel .lock_read], aC.2.2⟩
    else
      let lC : LockSt :=
        { lR with lock_read_count := true, read_count := lR.read_count + 1 }
      let trC := trR ++ [.acq .lock_read_count aC.2.1 true, .inc .read_count]
      if lC.read_count = 1 then
        let aW := subAcq env dl lC.lock_write aC.2.2
        if !aW.1 then
          ⟨false, locked0,
            { lC with read_count := lC.read_count - 1,
                      lock_read_count := false, lock_read := false },
            trC ++ [.acq .lock_write aW.2.1 false, .dec .read_count,
                    .rel .lock_read_count, .rel .lock_read], aW.2.2⟩
        else
          ⟨true, true,
            { lC with lock_write := true, lock_read_count := false,
                      lock_read := false },
            trC ++ [.acq .lock_write aW.2.1 true, .rel .lock_read_count,
                    .rel .lock_read], aW.2.2⟩
      else
        ⟨true, true, { lC with lock_read_count := false, lock_read := false },
          trC ++ [.rel .lock_read_count, .rel .lock_read], aC.2.2⟩

/-- Source `RWLockFair._aReader.release` (lines 297-305). -/
def release (locked0 : Bool) (l : LockSt) : Except String (ROut LockSt) :=
  if !locked0 then .error "cannot release un-acquired lock"
  else
    let l1 : LockSt :=
      { l with lock_read_count := true, read_count := l.read_count - 1 }
    let tr1 : List Ev := [.acq .lock_read_count (-1) true, .dec .read_count]
    if l1.read_count = 0 then
      .ok ⟨false, { l1 with lock_write := false, lock_read_count := false },
        tr1 ++ [.rel .lock_write, .rel .lock_read_count]⟩
    else
      .ok ⟨false, { l1 with lock_read_count := false },
        tr1 ++ [.rel .lock_read_count]⟩

/-- Source `RWLockFair._aReader.__enter__` (lines 311-312). -/
def enter (env : Env) (locked0 : Bool) (l : LockSt) (c : Ctx) : Out LockSt :=
  acquire env locked0 l true (-1) c

/-- Source `RWLockFair._aReader.__exit__` (lines 314-316). -/
def exitScope (locked0 : Bool) (l : LockSt) :
    Except String (ROut LockSt × Bool) :=
  (release locked0 l).map (fun r => (r, false))

end _aReader

namespace _aWriter

/-- Source `RWLockFair._aWriter.acquire` (lines 323-339); on success the writer
keeps holding both `lock_read` and `lock_write`. -/
def acquire (env : Env) (locked0 : Bool) (l : LockSt) (blocking : Bool)
    (timeout : Int) (c : Ctx) : Out LockSt :=
  let dc := mkDeadline env c blocking timeout
  let dl := dc.1
  let aR := subAcq env dl l.lock_read dc.2
  if !aR.1 then
    ⟨false, locked0, l, [.acq .lock_read aR.2.1 false], aR.2.2⟩
  else
    let lR : LockSt := { l with lock_read := true }
    let trR : List Ev := [.acq .lock_read aR.2.1 true]
    let aW := subAcq env dl lR.lock_write aR.2.2
    if !aW.1 then
      ⟨false, locked0, { lR with lock_read := false },
        trR ++ [.acq .lock_write aW.2.1 false, .rel .lock_read], aW.2.2⟩
    else
      ⟨true, true, { lR with lock_write := true },
        trR ++ [.acq .lock_write aW.2.1 true], aW.2.2⟩

/-- Source `RWLockFair._aWriter.release` (lines 341-346). -/
def release (locked0 : Bool) (l : LockSt) : Except String (ROut LockSt) :=
  if !locked0 then .error "cannot release un-acquired lock"
  else
    .ok ⟨false, { l with lock_write := false, lock_read := false },
      [.rel .lock_write, .rel .lock_read]⟩

/-- Source `RWLockFair._aWriter.__enter__` (lines 352-353). -/
def enter (env : Env) (locked0 : Bool) (l : LockSt) (c : Ctx) : Out LockSt :=
  acquire env locked0 l true (-1) c

/-- Source `RWLockFair._aWriter.__exit__` (lines 355-357). -/
def exitScope (locked0 : Bool) (l : LockSt) :
    Except String (ROut LockSt × Bool) :=
  (release locked0 l).map (fun r => (r, false))

end _aWriter

end RWLockFair

/-!
Whole-system semantics, one per variant: a lock together with a family of
reader guards and a family of writer guards, each guard being its `_locked`
flag.  An operation is one complete guard call (no thread is mid-operation
in between); acquires carry their own oracle and arguments.  A run is legal
when every acquire is issued on an existing guard that is not already
locked (the non-reentrant usage contract); `release` on an un-acquired
guard raises and leaves the state unchanged.
-/

namespace RWLockRead

structure Sys where
  lock : LockSt
  readers : List Bool
  writers : List Bool
deriving DecidableEq, Repr

inductive Op where
  | racq (i : Nat) (env : Env) (blocking : Bool) (timeout : Int)
  | rrel (i : Nat)
  | wacq (i : Nat) (env : Env) (blocking : Bool) (timeout : Int)
  | wrel (i : Nat)

def stepOp (s : Sys) : Op → Sys
  | .racq i env b t =>
    let o := _aReader.acquire env (s.readers.getD i false) s.lock b t ⟨0, 0⟩
    { s with lock := o.lock, readers := s.readers.set i o.locked }
  | .rrel i =>
    match _aReader.release (s.readers.getD i false) s.lock with
    | .ok r => { s with lock := r.lock, readers := s.readers.set i r.locked }
    | .error _ => s
  | .wacq i env b t =>
    let o := _aWriter.acquire env (s.writers.getD i false) s.lock b t ⟨0, 0⟩
    { s with lock := o.lock, writers := s.writers.set i o.locked }
  | .wrel i =>
    match _aWriter.release (s.writers.getD i false) s.lock with
    | .ok r => { s with lock := r.lock, writers := s.writers.set i r.locked }
    | .error _ => s

def legalOp (s : Sys) : Op → Prop
  | .racq i _ _ _ => i < s.readers.length ∧ s.readers.getD i false = false
  | .wacq i _ _ _ => i < s.writers.length ∧ s.writers.getD i false = false
  | .rrel _ => True
  | .wrel _ => True

def LegalRun : Sys → List Op → Prop
  | _, [] => True
  | s, op :: ops => legalOp s op ∧ LegalRun (stepOp s op) ops

def run (s : Sys) (ops : List Op) : Sys := ops.foldl stepOp s

def initSys (nr nw : Nat) : Sys :=
  ⟨init, List.replicate nr false, List.replicate nw false⟩

/-- Invariant between operations: the counter mutex is free, `read_count`
counts the locked readers, writers exclude each other and readers, and
`resource` is held exactly when some guard is locked. -/
def Inv (s : Sys) : Prop :=
  s.lock.lock_read_count = false ∧
  s.lock.read_count = (s.readers.count true : Int) ∧
  s.writers.count true ≤ 1 ∧
  ¬(0 < s.readers.count true ∧ 0 < s.writers.count true) ∧
  (s.lock.resource = true ↔
    0 < s.readers.count true ∨ 0 < s.writers.count true)

end RWLockRead

namespace RWLockWrite

structure Sys where
  lock : LockSt
  readers : List Bool
  writers : List Bool
deriving DecidableEq, Repr

inductive Op where
  | racq (i : Nat) (env : Env) (blocking : Bool) (timeout : Int)
  | rrel (i : Nat)
  | wacq (i : Nat) (env : Env) (blocking : Bool) (timeout : Int)
  | wrel (i : Nat)

def stepOp (s : Sys) : Op → Sys
  | .racq i env b t =>
    let o := _aReader.acquire env (s.readers.getD i false) s.lock b t ⟨0, 0⟩
    { s with lock := o.lock, readers := s.readers.set i o.locked }
  | .rrel i =>
    match _aReader.release (s.readers.getD i false) s.lock with
    | .ok r => { s with lock := r.lock, readers := s.readers.set i r.locked }
    | .error _ => s
  | .wacq i env b t =>
    let o := _aWriter.acquire env (s.writers.getD i false) s.lock b t ⟨0, 0⟩
    { s with lock := o.lock, writers := s.writers.set i o.locked }
  | .wrel i =>
    match _aWriter.release (s.writers.getD i false) s.lock with
    | .ok r => { s with lock := r.lock, writers := s.writers.set i r.locked }
    | .error _ => s

def legalOp (s : Sys) : Op → Prop
  | .racq i _ _ _ => i < s.readers.length ∧ s.readers.getD i false = false
  | .wacq i _ _ _ => i < s.writers.length ∧ s.writers.getD i false = false
  | .rrel _ => True
  | .wrel _ => True

def LegalRun : Sys → List Op → Prop
  | _, [] => True
  | s, op :: ops => legalOp s op ∧ LegalRun (stepOp s op) ops

def run (s : Sys) (ops : List Op) : Sys := ops.foldl stepOp s

def initSys (nr nw : Nat) : Sys :=
  ⟨init, List.replicate nr false, List.replicate nw false⟩

/-- Invariant between operations: the serializing mutexes are free, the
counters count the locked guards, `lock_read_try` is held exactly while a
writer is present, and `resource` exactly while some guard is locked. -/
def Inv (s : Sys) : Prop :=
  s.lock.lock_read_count = false ∧
  s.lock.lock_write_count = false ∧
  s.lock.lock_read_entry = false ∧
  s.lock.read_count = (s.readers.count true : Int) ∧
  s.lock.write_count = (s.writers.count true : Int) ∧
  s.writers.count true ≤ 1 ∧
  ¬(0 < s.readers.count true ∧ 0 < s.writers.count true) ∧
  (s.lock.lock_read_try = true ↔ 0 < s.writers.count true) ∧
  (s.lock.resource = true ↔
    0 < s.readers.count true ∨ 0 < s.writers.count true)

end RWLockWrite

namespace RWLockFair

structure Sys where
  lock : LockSt
  readers : List Bool
  writers : List Bool
deriving DecidableEq, Repr

inductive Op where
  | racq (i : Nat) (env : Env) (blocking : Bool) (timeout : Int)
  | rrel (i : Nat)
  | wacq (i : Nat) (env : Env) (blocking : Bool) (timeout : Int)
  | wrel (i : Nat)

def stepOp (s : Sys) : Op → Sys
  | .racq i env b t =>
    let o := _aReader.acquire env (s.readers.getD i false) s.lock b t ⟨0, 0⟩
    { s with lock := o.lock, readers := s.readers.set i o.locked }
  | .rrel i =>
    match _aReader.release (s.readers.getD i false) s.lock with
    | .ok r => { s with lock := r.lock, readers := s.readers.set i r.locked }
    | .error _ => s
  | .wacq i env b t =>
    let o := _aWriter.acquire env (s.writers.getD i false) s.lock b t ⟨0, 0⟩
    { s with lock := o.lock, writers := s.writers.set i o.locked }
  | .wrel i =>
    match _aWriter.release (s.writers.getD i false) s.lock with
    | .ok r => { s with lock := r.lock, writers := s.writers.set i r.locked }
    | .error _ => s

def legalOp (s : Sys) : Op → Prop
  | .racq i _ _ _ => i < s.readers.length ∧ s.readers.getD i false = false
  | .wacq i _ _ _ => i < s.writers.length ∧ s.writers.getD i false = false
  | .rrel _ => True
  | .wrel _ => True

def LegalRun : Sys → List Op → Prop
  | _, [] => True
  | s, op :: ops => legalOp s op ∧ LegalRun (stepOp s op) ops

def run (s : Sys) (ops : List Op) : Sys := ops.foldl stepOp s

def initSys (nr nw : Nat) : Sys :=
  ⟨init, List.replicate nr false, List.replicate nw false⟩

/-- Invariant between operations: the counter mutex is free, `lock_read`
(the turnstile) is held exactly while a writer is locked, `read_count`
counts the locked readers, and `lock_write` is held exactly when some guard
is locked. -/
def Inv (s : Sys) : Prop :=
  s.lock.lock_read_count = false ∧
  (s.lock.lock_read = true ↔ 0 < s.writers.count true) ∧
  s.lock.read_count = (s.readers.count true : Int) ∧
  s.writers.count true ≤ 1 ∧
  ¬(0 < s.readers.count true ∧ 0 < s.writers.count true) ∧
  (s.lock.lock_write = true ↔
    0 < s.readers.count true ∨ 0 < s.writers.count true)

end RWLockFair

/-!
Concrete environments and inputs used by witnesses and counterexamples.
-/

/-- An oracle in which every timed wait succeeds; the clock is constant 0. -/
def envOK : Env := ⟨fun _ => true, fun _ _ => true, fun _ => 0⟩

/-- An oracle in which every timed wait fails (heavy contention); the clock
is constant 0. -/
def envFail : Env := ⟨fun _ => false, fun _ _ => false, fun _ => 0⟩

/-- An oracle in which the first `n` timed waits succeed and the rest fail. -/
def envUpTo (n : Nat) : Env :=
  ⟨fun i => decide (i < n), fun i _ => decide (i < n), fun _ => 0⟩

/-- The starting counter context. -/
def c0 : Ctx := ⟨0, 0⟩

/-- Lock state of `RWLockRead` after one successful reader acquire. -/
def rLock1 : RWLockRead.LockSt :=
  (RWLockRead._aReader.acquire envOK false RWLockRead.init true (-1) c0).lock

/-- Lock state of `RWLockRead` after one successful writer acquire. -/
def wLock1 : RWLockRead.LockSt :=
  (RWLockRead._aWriter.acquire envOK false RWLockRead.init true (-1) c0).lock

/-- A two-operation reader run (acquire then release) on each variant. -/
def c9opsRead : List RWLockRead.Op :=
  [.racq 0 envOK true (-1), .rrel 0]

def c9opsWrite : List RWLockWrite.Op :=
  [.racq 0 envOK true (-1), .rrel 0]

def c9opsFair : List RWLockFair.Op :=
  [.racq 0 envOK true (-1), .rrel 0]

/-- All timeout values in a list equal `-1` (used to state that an
indefinite deadline passes `-1` through to every sub-acquire). -/
def allNeg1 (qs : List Int) : Bool := qs.all (fun q => q == -1)

/-!
Helper lemmas about the mutex model and about counting locked guards.
-/

theorem mutexAcquire_true {env : Env} {ci : Nat} {held b : Bool} {t : Int}
    (h : mutexAcquire env ci held b t = true) : held = false := by
  unfold mutexAcquire at h
  simp only [Bool.and_eq_true, Bool.not_eq_true'] at h
  exact h.1

theorem subAcq_true {env : Env} {dl : Option Int} {held : Bool} {c : Ctx}
    (h : (subAcq env dl held c).1 = true) : held = false := by
  unfold subAcq at h
  exact mutexAcquire_true h

theorem countTrue_set_true : ∀ (l : List Bool) (i : Nat), i < l.length →
    l.getD i false = false → (l.set i true).count true = l.count true + 1
  | [], i, h, _ => absurd h (by simp)
  | b :: bs, 0, _, h2 => by
    simp only [List.getD_cons_zero] at h2
    simp [h2, List.count_cons]
  | b :: bs, i+1, h1, h2 => by
    simp only [List.set_cons_succ, List.count_cons]
    rw [countTrue_set_true bs i (by simpa using h1) (by simpa using h2)]
    omega

theorem countTrue_set_false_of_true : ∀ (l : List Bool) (i : Nat),
    l.getD i false = true → (l.set i false).count true + 1 = l.count true
  | [], i, h => by simp at h
  | b :: bs, 0, h => by
    simp only [List.getD_cons_zero] at h
    simp [h, List.count_cons]
  | b :: bs, i+1, h => by
    simp only [List.set_cons_succ, List.count_cons]
    rw [← countTrue_set_false_of_true bs i (by simpa using h)]
    omega

theorem countTrue_set_false_of_false : ∀ (l : List Bool) (i : Nat),
    l.getD i false = false → (l.set i false).count true = l.count true
  | [], _, _ => by simp
  | b :: bs, 0, h => by
    simp only [List.getD_cons_zero] at h
    simp [h, List.count_cons]
  | b :: bs, i+1, h => by
    simp only [List.set_cons_succ, List.count_cons]
    rw [countTrue_set_false_of_false bs i (by simpa using h)]

theorem countTrue_pos_of_getD : ∀ (l : List Bool) (i : Nat),
    l.getD i false = true → 0 < l.count true
  | [], i, h => by simp at h
  | b :: bs, 0, h => by
    simp only [List.getD_cons_zero] at h
    simp [h, List.count_cons]
  | b :: bs, i+1, h => by
    have h2 := countTrue_pos_of_getD bs i (by simpa using h)
    cases b <;> simp only [List.count_cons] <;> omega

/-!
Case analyses of the guard operations, used both for the no-net-change
theorems and for the system invariants.
-/

namespace RWLockRead

theorem rread_racq_cases (env : Env) (locked0 : Bool) (l : LockSt)
    (b : Bool) (t : Int) (c : Ctx) :
    (let o := _aReader.acquire env locked0 l b t c
     (o.ok = false ∧ o.locked = locked0 ∧ o.lock = l) ∨
     (o.ok = true ∧ o.locked = true ∧ l.lock_read_count = false ∧
       ((l.read_count + 1 = 1 ∧ l.resource = false ∧
          o.lock = { l with read_count := l.read_count + 1, resource := true }) ∨
        (l.read_count + 1 ≠ 1 ∧
          o.lock = { l with read_count := l.read_count + 1 })))) := by
  simp only [_aReader.acquire]
  split
  · left; exact ⟨rfl, rfl, rfl⟩
  · next h1 =>
    simp only [Bool.not_eq_true, Bool.not_eq_false'] at h1
    have hfree := subAcq_true h1
    split
    · next hrc =>
      split
      · left
        refine ⟨rfl, rfl, ?_⟩
        obtain ⟨rc, res, lrc⟩ := l
        simp_all
      · next h2 =>
        simp only [Bool.not_eq_true, Bool.not_eq_false'] at h2
        have hres := subAcq_true h2
        right
        refine ⟨rfl, rfl, hfree, Or.inl ⟨by simpa using hrc, hres, ?_⟩⟩
        obtain ⟨rc, res, lrc⟩ := l
        simp_all
    · next hrc =>
      right
      refine ⟨rfl, rfl, hfree, Or.inr ⟨by simpa using hrc, ?_⟩⟩
      obtain ⟨rc, res, lrc⟩ := l
      simp_all

theorem rread_wacq_cases (env : Env) (locked0 : Bool) (l : LockSt)
    (b : Bool) (t : Int) (c : Ctx) :
    (let o := _aWriter.acquire env locked0 l b t c
     o.locked = o.ok ∧
     ((o.ok = false ∧ o.lock = l) ∨
      (o.ok = true ∧ l.resource = false ∧
        o.lock = { l with resource := true }))) := by
  simp only [_aWriter.acquire]
  refine ⟨by trivial, ?_⟩
  cases h : mutexAcquire env c.ci l.resource b t
  · left; simp [h]
  · right
    have hres := mutexAcquire_true h
    simp [h, hres]

end RWLockRead

namespace RWLockWrite

theorem rwrite_racq_cases (env : Env) (locked0 : Bool) (l : LockSt)
    (b : Bool) (t : Int) (c : Ctx) :
    (let o := _aReader.acquire env locked0 l b t c
     (o.ok = false ∧ o.locked = locked0 ∧ o.lock = l) ∨
     (o.ok = true ∧ o.locked = true ∧ l.lock_read_entry = false ∧
       l.lock_read_try = false ∧ l.lock_read_count = false ∧
       ((l.read_count + 1 = 1 ∧ l.resource = false ∧
          o.lock = { l with read_count := l.read_count + 1, resource := true }) ∨
        (l.read_count + 1 ≠ 1 ∧
          o.lock = { l with read_count := l.read_count + 1 })))) := by
  simp only [_aReader.acquire]
  split
  · left; exact ⟨rfl, rfl, rfl⟩
  · next hE =>
    simp only [Bool.not_eq_true, Bool.not_eq_false'] at hE
    have hEf := subAcq_true hE
    split
    · next hT =>
      left
      refine ⟨rfl, rfl, ?_⟩
      obtain ⟨rc, wc, lrc, lwc, lre, lrt, res⟩ := l
      simp_all
    · next hT =>
      simp only [Bool.not_eq_true, Bool.not_eq_false'] at hT
      have hTf : l.lock_read_try = false := by simpa using subAcq_true hT
      split
      · next hC =>
        left
        refine ⟨rfl, rfl, ?_⟩
        obtain ⟨rc, wc, lrc, lwc, lre, lrt, res⟩ := l
        simp_all
      · next hC =>
        simp only [Bool.not_eq_true, Bool.not_eq_false'] at hC
        have hCf : l.lock_read_count = false := by simpa using subAcq_true hC
        split
        · next hrc =>
          split
          · left
            refine ⟨rfl, rfl, ?_⟩
            obtain ⟨rc, wc, lrc, lwc, lre, lrt, res⟩ := l
            simp_all
          · next hR =>
            simp only [Bool.not_eq_true, Bool.not_eq_false'] at hR
            have hRf : l.resource = false := by simpa using subAcq_true hR
            right
            refine ⟨rfl, rfl, hEf, hTf, hCf,
              Or.inl ⟨by simpa using hrc, hRf, ?_⟩⟩
            obtain ⟨rc, wc, lrc, lwc, lre, lrt, res⟩ := l
            simp_all
        · next hrc =>
          right
          refine ⟨rfl, rfl, hEf, hTf, hCf, Or.inr ⟨by simpa using hrc, ?_⟩⟩
          obtain ⟨rc, wc, lrc, lwc, lre, lrt, res⟩ := l
          simp_all

theorem rwrite_wacqTail_cases (env : Env) (dl : Option Int) (locked0 : Bool)
    (lT : LockSt) (trT : List Ev) (c : Ctx) :
    (let o := _aWriter.acquireTail env dl locked0 lT trT c
     (o.ok = false ∧ o.locked = locked0 ∧
       ((lT.write_count - 1 = 0 ∧
          o.lock = { lT with write_count := lT.write_count - 1,
                             lock_read_try := false,
                             lock_write_count := false }) ∨
        (lT.write_count - 1 ≠ 0 ∧
          o.lock = { lT with write_count := lT.write_count - 1,
                             lock_write_count := false }))) ∨
     (o.ok = true ∧ o.locked = true ∧ lT.resource = false ∧
       o.lock = { lT with resource := true, lock_write_count := false })) := by
  simp only [_aWriter.acquireTail]
  split
  · next hR =>
    left
    split
    · next h0 =>
      exact ⟨rfl, rfl, Or.inl ⟨by simpa using h0, rfl⟩⟩
    · next h0 =>
      exact ⟨rfl, rfl, Or.inr ⟨by simpa using h0, rfl⟩⟩
  · next hR =>
    simp only [Bool.not_eq_true, Bool.not_eq_false'] at hR
    have hRf : lT.resource = false := by simpa using subAcq_true hR
    right
    exact ⟨rfl, rfl, hRf, rfl⟩

theorem rwrite_wacq_cases (env : Env) (locked0 : Bool) (l : LockSt)
    (b : Bool) (t : Int) (c : Ctx) :
    (let o := _aWriter.acquire env locked0 l b t c
     (o.ok = false ∧ o.locked = locked0 ∧ o.lock = l) ∨
     (o.ok = true ∧ o.locked = true ∧ l.lock_write_count = false ∧
       l.resource = false ∧
       ((l.write_count + 1 = 1 ∧ l.lock_read_try = false ∧
          o.lock = { l with write_count := l.write_count + 1,
                            lock_read_try := true, resource := true }) ∨
        (l.write_count + 1 ≠ 1 ∧
          o.lock = { l with write_count := l.write_count + 1,
                            resource := true })))) := by
  simp only [_aWriter.acquire]
  split
  · left; exact ⟨rfl, rfl, rfl⟩
  · next hW =>
    simp only [Bool.not_eq_true, Bool.not_eq_false'] at hW
    have hWf := subAcq_true hW
    split
    · next hwc =>
      split
      · next hT =>
        left
        refine ⟨rfl, rfl, ?_⟩
        obtain ⟨rc, wc, lrc, lwc, lre, lrt, res⟩ := l
        simp_all
      · next hT =>
        simp only [Bool.not_eq_true, Bool.not_eq_false'] at hT
        have hTf : l.lock_read_try = false := by simpa using subAcq_true hT
        rcases rwrite_wacqTail_cases env (mkDeadline env c b t).1 locked0
            { l with lock_write_count := true,
                     write_count := l.write_count + 1,
                     lock_read_try := true }
            ([.acq .lock_write_count
                (subAcq env (mkDeadline env c b t).1 l.lock_write_count
                  (mkDeadline env c b t).2).2.1 true, .inc .write_count] ++
              [.acq .lock_read_try
                (subAcq env (mkDeadline env c b t).1
                  ({ l with lock_write_count := true,
                            write_count := l.write_count + 1 } : LockSt).lock_read_try
                  (subAcq env (mkDeadline env c b t).1 l.lock_write_count
                    (mkDeadline env c b t).2).2.2).2.1 true])
            (subAcq env (mkDeadline env c b t).1
              ({ l with lock_write_count := true,
                        write_count := l.write_count + 1 } : LockSt).lock_read_try
              (subAcq env (mkDeadline env c b t).1 l.lock_write_count
                (mkDeadline env c b t).2).2.2).2.2 with
          htail | htail
        · obtain ⟨hok, hlg, hcase⟩ := htail
          left
          refine ⟨hok, hlg, ?_⟩
          rcases hcase with ⟨h0, hlock⟩ | ⟨h0, hlock⟩
          · rw [hlock]
            obtain ⟨rc, wc, lrc, lwc, lre, lrt, res⟩ := l
            simp_all
          · exfalso
            simp only at h0
            omega
        · obtain ⟨hok, hlg, hres, hlock⟩ := htail
          right
          refine ⟨hok, hlg, hWf, by simpa using hres,
            Or.inl ⟨by simpa using hwc, hTf, ?_⟩⟩
          rw [hlock]
          obtain ⟨rc, wc, lrc, lwc, lre, lrt, res⟩ := l
          simp_all
    · next hwc =>
      rcases rwrite_wacqTail_cases env (mkDeadline env c b t).1 locked0
          { l with lock_write_count := true, write_count := l.write_count + 1 }
          [.acq .lock_write_count
            (subAcq env (mkDeadline env c b t).1 l.lock_write_count
              (mkDeadline env c b t).2).2.1 true, .inc .write_count]
          (subAcq env (mkDeadline env c b t).1 l.lock_write_count
            (mkDeadline env c b t).2).2.2 with
        htail | htail
      · obtain ⟨hok, hlg, hcase⟩ := htail
        left
        refine ⟨hok, hlg, ?_⟩
        rcases hcase with ⟨h0, hlock⟩ | ⟨h0, hlock⟩
        · exfalso
          simp only at h0 hwc
          omega
        · rw [hlock]
          obtain ⟨rc, wc, lrc, lwc, lre, lrt, res⟩ := l
          simp_all
      · obtain ⟨hok, hlg, hres, hlock⟩ := htail
        right
        refine ⟨hok, hlg, hWf, by simpa using hres,
          Or.inr ⟨by simpa using hwc, ?_⟩⟩
        rw [hlock]
        obtain ⟨rc, wc, lrc, lwc, lre, lrt, res⟩ := l
        simp_all

end RWLockWrite

namespace RWLockFair

theorem rfair_racq_cases (env : Env) (locked0 : Bool) (l : LockSt)
    (b : Bool) (t : Int) (c : Ctx) :
    (let o := _aReader.acquire env locked0 l b t c
     (o.ok = false ∧ o.locked = locked0 ∧ o.lock = l) ∨
     (o.ok = true ∧ o.locked = true ∧ l.lock_read = false ∧
       l.lock_read_count = false ∧
       ((l.read_count + 1 = 1 ∧ l.lock_write = false ∧
          o.lock = { l with read_count := l.read_count + 1,
                            lock_write := true }) ∨
        (l.read_count + 1 ≠ 1 ∧
          o.lock = { l with read_count := l.read_count + 1 })))) := by
  simp only [_aReader.acquire]
  split
  · left; exact ⟨rfl, rfl, rfl⟩
  · next hR =>
    simp only [Bool.not_eq_true, Bool.not_eq_false'] at hR
    have hRf := subAcq_true hR
    split
    · next hC =>
      left
      refine ⟨rfl, rfl, ?_⟩
      obtain ⟨rc, lrc, lr, lw⟩ := l
      simp_all
    · next hC =>
      simp only [Bool.not_eq_true, Bool.not_eq_false'] at hC
      have hCf : l.lock_read_count = false := by simpa using subAcq_true hC
      split
      · next hrc =>
        split
        · left
          refine ⟨rfl, rfl, ?_⟩
          obtain ⟨rc, lrc, lr, lw⟩ := l
          simp_all
        · next hW =>
          simp only [Bool.not_eq_true, Bool.not_eq_false'] at hW
          have hWf : l.lock_write = false := by simpa using subAcq_true hW
          right
          refine ⟨rfl, rfl, hRf, hCf, Or.inl ⟨by simpa using hrc, hWf, ?_⟩⟩
          obtain ⟨rc, lrc, lr, lw⟩ := l
          simp_all
      · next hrc =>
        right
        refine ⟨rfl, rfl, hRf, hCf, Or.inr ⟨by simpa using hrc, ?_⟩⟩
        obtain ⟨rc, lrc, lr, lw⟩ := l
        simp_all

theorem rfair_wacq_cases (env : Env) (locked0 : Bool) (l : LockSt)
    (b : Bool) (t : Int) (c : Ctx) :
    (let o := _aWriter.acquire env locked0 l b t c
     (o.ok = false ∧ o.locked = locked0 ∧ o.lock = l) ∨
     (o.ok = true ∧ o.locked = true ∧ l.lock_read = false ∧
       l.lock_write = false ∧
       o.lock = { l with lock_read := true, lock_write := true })) := by
  simp only [_aWriter.acquire]
  split
  · left; exact ⟨rfl, rfl, rfl⟩
  · next hR =>
    simp only [Bool.not_eq_true, Bool.not_eq_false'] at hR
    have hRf := subAcq_true hR
    split
    · next hW =>
      left
      refine ⟨rfl, rfl, ?_⟩
      obtain ⟨rc, lrc, lr, lw⟩ := l
      simp_all
    · next hW =>
      simp only [Bool.not_eq_true, Bool.not_eq_false'] at hW
      have hWf : l.lock_write = false := by simpa using subAcq_true hW
      right
      exact ⟨rfl, rfl, hRf, hWf, rfl⟩

end RWLockFair

namespace RWLockRead

theorem rread_rrel_false (l : LockSt) :
    _aReader.release false l = .error "cannot release un-acquired lock" := rfl

theorem rread_rrel_true (l : LockSt) :
    _aReader.release true l =
      .ok ⟨false,
        { l with read_count := l.read_count - 1,
                 resource := if l.read_count - 1 = 0 then false else l.resource,
                 lock_read_count := false },
        if l.read_count - 1 = 0 then
          [.acq .lock_read_count (-1) true, .dec .read_count,
           .rel .resource, .rel .lock_read_count]
        else
          [.acq .lock_read_count (-1) true, .dec .read_count,
           .rel .lock_read_count]⟩ := by
  by_cases h : l.read_count - 1 = 0 <;>
    simp [_aReader.release, h]

theorem rread_wrel_false (l : LockSt) :
    _aWriter.release false l = .error "cannot release un-acquired lock" := rfl

theorem rread_wrel_true (l : LockSt) :
    _aWriter.release true l =
      .ok ⟨false, { l with resource := false }, [.rel .resource]⟩ := rfl

theorem rread_inv_step {s : Sys} {op : Op} (hs : Inv s) (hl : legalOp s op) :
    Inv (stepOp s op) := by
  obtain ⟨h1, h2, h3, h4, h5⟩ := hs
  cases op with
  | racq i env b t =>
    obtain ⟨hi, hg⟩ := hl
    rcases rread_racq_cases env (s.readers.getD i false) s.lock b t ⟨0, 0⟩ with
      ⟨hok, hlg, hlock⟩ | ⟨hok, hlg, hlrc, hcase⟩
    · simp only [stepOp, Inv]
      rw [hlock, hlg, hg, countTrue_set_false_of_false _ _ hg]
      exact ⟨h1, h2, h3, h4, h5⟩
    · have hcnt := countTrue_set_true _ _ hi hg
      simp only [stepOp, Inv]
      rw [hlg, hcnt]
      rcases hcase with ⟨hc1, hres, hlock⟩ | ⟨hc1, hlock⟩
      · have hw : s.writers.count true = 0 := by
          rcases Nat.eq_zero_or_pos (s.writers.count true) with h | h
          · exact h
          · exact absurd (h5.mpr (Or.inr h)) (by simp [hres])
        rw [hlock]
        refine ⟨?_, ?_, ?_, ?_, ?_⟩ <;>
          first
            | trivial
            | exact h3
            | omega
            | (push_cast; omega)
            | (simp_all <;>
                first
                  | rfl
                  | omega
                  | (push_cast; omega)
                  | (rw [← List.count_eq_zero]; omega))
            | simp_all
      · have hrpos : 0 < s.readers.count true := by
          have hne : s.lock.read_count ≠ 0 := by omega
          rw [h2] at hne
          omega
        have hw : s.writers.count true = 0 := by
          by_contra hw0
          exact h4 ⟨hrpos, Nat.pos_of_ne_zero hw0⟩
        have hres : s.lock.resource = true := h5.mpr (Or.inl hrpos)
        rw [hlock]
        refine ⟨?_, ?_, ?_, ?_, ?_⟩ <;>
          first
            | trivial
            | exact h3
            | omega
            | (push_cast; omega)
            | (simp_all <;>
                first
                  | rfl
                  | omega
                  | (push_cast; omega)
                  | (rw [← List.count_eq_zero]; omega))
            | simp_all
  | rrel i =>
    cases hg : s.readers.getD i false with
    | false =>
      simp only [stepOp, hg, rread_rrel_false]
      exact ⟨h1, h2, h3, h4, h5⟩
    | true =>
      have hcnt := countTrue_set_false_of_true _ _ hg
      have hpos := countTrue_pos_of_getD _ _ hg
      have hw : s.writers.count true = 0 := by
        by_contra hw0
        exact h4 ⟨hpos, Nat.pos_of_ne_zero hw0⟩
      simp only [stepOp, hg, rread_rrel_true, Inv]
      by_cases h0 : s.lock.read_count - 1 = 0
      · have hc0 : (s.readers.set i false).count true = 0 := by omega
        rw [h0]
        refine ⟨?_, ?_, ?_, ?_, ?_⟩ <;>
          first
            | trivial
            | exact h3
            | omega
            | (push_cast; omega)
            | (simp_all <;>
                first
                  | rfl
                  | omega
                  | (push_cast; omega)
                  | (rw [← List.count_eq_zero]; omega))
            | simp_all
      · have hcpos : 0 < (s.readers.set i false).count true := by omega
        have hres : s.lock.resource = true := h5.mpr (Or.inl hpos)
        rw [if_neg h0]
        refine ⟨?_, ?_, ?_, ?_, ?_⟩ <;>
          first
            | trivial
            | exact h3
            | omega
            | (push_cast; omega)
            | (simp_all <;>
                first
                  | rfl
                  | omega
                  | (push_cast; omega)
                  | (rw [← List.count_eq_zero]; omega))
            | simp_all
  | wacq i env b t =>
    obtain ⟨hi, hg⟩ := hl
    rcases rread_wacq_cases env (s.writers.getD i false) s.lock b t ⟨0, 0⟩ with
      ⟨hlg, hcase⟩
    rcases hcase with ⟨hok, hlock⟩ | ⟨hok, hres, hlock⟩
    · simp only [stepOp, Inv]
      rw [hlock, hlg, hok, countTrue_set_false_of_false _ _ hg]
      exact ⟨h1, h2, h3, h4, h5⟩
    · have hcnt := countTrue_set_true _ _ hi hg
      have hr0 : s.readers.count true = 0 := by
        rcases Nat.eq_zero_or_pos (s.readers.count true) with h | h
        · exact h
        · exact absurd (h5.mpr (Or.inl h)) (by simp [hres])
      have hw0 : s.writers.count true = 0 := by
        rcases Nat.eq_zero_or_pos (s.writers.count true) with h | h
        · exact h
        · exact absurd (h5.mpr (Or.inr h)) (by simp [hres])
      simp only [stepOp, Inv]
      rw [hlg, hok, hlock, hcnt]
      refine ⟨?_, ?_, ?_, ?_, ?_⟩ <;>
        first
          | trivial
          | exact h3
          | omega
          | (push_cast; omega)
          | (simp_all <;>
              first
                | rfl
                | omega
                | (push_cast; omega)
                | (rw [← List.count_eq_zero]; omega))
          | simp_all
  | wrel i =>
    cases hg : s.writers.getD i false with
    | false =>
      simp only [stepOp, hg, rread_wrel_false]
      exact ⟨h1, h2, h3, h4, h5⟩
    | true =>
      have hcnt := countTrue_set_false_of_true _ _ hg
      have hpos := countTrue_pos_of_getD _ _ hg
      have hr0 : s.readers.count true = 0 := by
        by_contra hr
        exact h4 ⟨Nat.pos_of_ne_zero hr, hpos⟩
      simp only [stepOp, hg, rread_wrel_true, Inv]
      refine ⟨?_, ?_, ?_, ?_, ?_⟩ <;>
        first
          | trivial
          | exact h3
          | omega
          | (push_cast; omega)
          | (simp_all <;>
              first
                | rfl
                | omega
                | (push_cast; omega)
                | (rw [← List.count_eq_zero]; omega))
          | simp_all

theorem rread_inv_run : ∀ (ops : List Op) (s : Sys), Inv s →
    LegalRun s ops → Inv (run s ops)
  | [], s, hs, _ => hs
  | op :: ops, s, hs, ⟨h1, h2⟩ =>
    rread_inv_run ops (stepOp s op) (rread_inv_step hs h1) h2

theorem rread_inv_init (nr nw : Nat) : Inv (initSys nr nw) := by
  refine ⟨rfl, ?_, ?_, ?_, ?_⟩ <;>
    simp [initSys, init, List.count_replicate]

end RWLockRead

namespace RWLockWrite

theorem rwrite_rrel_false (l : LockSt) :
    _aReader.release false l = .error "cannot release un-acquired lock" := rfl

theorem rwrite_rrel_true (l : LockSt) :
    _aReader.release true l =
      .ok ⟨false,
        { l with read_count := l.read_count - 1,
                 resource := if l.read_count - 1 = 0 then false else l.resource,
                 lock_read_count := false },
        if l.read_count - 1 = 0 then
          [.acq .lock_read_count (-1) true, .dec .read_count,
           .rel .resource, .rel .lock_read_count]
        else
          [.acq .lock_read_count (-1) true, .dec .read_count,
           .rel .lock_read_count]⟩ := by
  by_cases h : l.read_count - 1 = 0 <;>
    simp [_aReader.release, h]

theorem rwrite_wrel_false (l : LockSt) :
    _aWriter.release false l = .error "cannot release un-acquired lock" := rfl

theorem rwrite_wrel_true (l : LockSt) :
    _aWriter.release true l =
      .ok ⟨false,
        { l with resource := false, write_count := l.write_count - 1,
                 lock_read_try := if l.write_count - 1 = 0 then false
                                  else l.lock_read_try,
                 lock_write_count := false },
        if l.write_count - 1 = 0 then
          [.rel .resource, .acq .lock_write_count (-1) true, .dec .write_count,
           .rel .lock_read_try, .rel .lock_write_count]
        else
          [.rel .resource, .acq .lock_write_count (-1) true, .dec .write_count,
           .rel .lock_write_count]⟩ := by
  by_cases h : l.write_count - 1 = 0 <;>
    simp [_aWriter.release, h]

theorem rwrite_inv_step {s : Sys} {op : Op} (hs : Inv s) (hl : legalOp s op) :
    Inv (stepOp s op) := by
  obtain ⟨h1, h2, h3, h4, h5, h6, h7, h8, h9⟩ := hs
  cases op with
  | racq i env b t =>
    obtain ⟨hi, hg⟩ := hl
    rcases rwrite_racq_cases env (s.readers.getD i false) s.lock b t ⟨0, 0⟩ with
      ⟨hok, hlg, hlock⟩ | ⟨hok, hlg, hE, hT, hC, hcase⟩
    · simp only [stepOp, Inv]
      rw [hlock, hlg, hg, countTrue_set_false_of_false _ _ hg]
      exact ⟨h1, h2, h3, h4, h5, h6, h7, h8, h9⟩
    · have hcnt := countTrue_set_true _ _ hi hg
      simp only [stepOp, Inv]
      rw [hlg, hcnt]
      rcases hcase with ⟨hc1, hres, hlock⟩ | ⟨hc1, hlock⟩
      · have hw0 : s.writers.count true = 0 := by
          rcases Nat.eq_zero_or_pos (s.writers.count true) with h | h
          · exact h
          · exact absurd (h9.mpr (Or.inr h)) (by simp [hres])
        rw [hlock]
        refine ⟨?_, ?_, ?_, ?_, ?_, ?_, ?_, ?_, ?_⟩ <;>
          first
            | trivial
            | assumption
            | omega
            | (push_cast; omega)
            | (simp_all <;>
                first
                  | rfl
                  | omega
                  | (push_cast; omega)
                  | (rw [← List.count_eq_zero]; omega))
            | simp_all
      · have hrpos : 0 < s.readers.count true := by
          have hne : s.lock.read_count ≠ 0 := by omega
          rw [h4] at hne
          omega
        have hw0 : s.writers.count true = 0 := by
          by_contra hw1
          exact h7 ⟨hrpos, Nat.pos_of_ne_zero hw1⟩
        have hres : s.lock.resource = true := h9.mpr (Or.inl hrpos)
        rw [hlock]
        refine ⟨?_, ?_, ?_, ?_, ?_, ?_, ?_, ?_, ?_⟩ <;>
          first
            | trivial
            | assumption
            | omega
            | (push_cast; omega)
            | (simp_all <;>
                first
                  | rfl
                  | omega
                  | (push_cast; omega)
                  | (rw [← List.count_eq_zero]; omega))
            | simp_all
  | rrel i =>
    cases hg : s.readers.getD i false with
    | false =>
      simp only [stepOp, hg, rwrite_rrel_false]
      exact ⟨h1, h2, h3, h4, h5, h6, h7, h8, h9⟩
    | true =>
      have hcnt := countTrue_set_false_of_true _ _ hg
      have hpos := countTrue_pos_of_getD _ _ hg
      have hw0 : s.writers.count true = 0 := by
        by_contra hw1
        exact h7 ⟨hpos, Nat.pos_of_ne_zero hw1⟩
      simp only [stepOp, hg, rwrite_rrel_true, Inv]
      by_cases h0 : s.lock.read_count - 1 = 0
      · have hc0 : (s.readers.set i false).count true = 0 := by omega
        rw [h0]
        refine ⟨?_, ?_, ?_, ?_, ?_, ?_, ?_, ?_, ?_⟩ <;>
          first
            | trivial
            | assumption
            | omega
            | (push_cast; omega)
            | (simp_all <;>
                first
                  | rfl
                  | omega
                  | (push_cast; omega)
                  | (rw [← List.count_eq_zero]; omega))
            | simp_all
      · have hcpos : 0 < (s.readers.set i false).count true := by omega
        have hres : s.lock.resource = true := h9.mpr (Or.inl hpos)
        rw [if_neg h0]
        refine ⟨?_, ?_, ?_, ?_, ?_, ?_, ?_, ?_, ?_⟩ <;>
          first
            | trivial
            | assumption
            | omega
            | (push_cast; omega)
            | (simp_all <;>
                first
                  | rfl
                  | omega
                  | (push_cast; omega)
                  | (rw [← List.count_eq_zero]; omega))
            | simp_all
  | wacq i env b t =>
    obtain ⟨hi, hg⟩ := hl
    rcases rwrite_wacq_cases env (s.writers.getD i false) s.lock b t ⟨0, 0⟩ with
      ⟨hok, hlg, hlock⟩ | ⟨hok, hlg, hW, hres, hcase⟩
    · simp only [stepOp, Inv]
      rw [hlock, hlg, hg, countTrue_set_false_of_false _ _ hg]
      exact ⟨h1, h2, h3, h4, h5, h6, h7, h8, h9⟩
    · have hcnt := countTrue_set_true _ _ hi hg
      have hr0 : s.readers.count true = 0 := by
        rcases Nat.eq_zero_or_pos (s.readers.count true) with h | h
        · exact h
        · exact absurd (h9.mpr (Or.inl h)) (by simp [hres])
      have hw0 : s.writers.count true = 0 := by
        rcases Nat.eq_zero_or_pos (s.writers.count true) with h | h
        · exact h
        · exact absurd (h9.mpr (Or.inr h)) (by simp [hres])
      rcases hcase with ⟨hc1, hT, hlock⟩ | ⟨hc1, hlock⟩
      · simp only [stepOp, Inv]
        rw [hlg, hlock, hcnt]
        refine ⟨?_, ?_, ?_, ?_, ?_, ?_, ?_, ?_, ?_⟩ <;>
          first
            | trivial
            | assumption
            | omega
            | (push_cast; omega)
            | (simp_all <;>
                first
                  | rfl
                  | omega
                  | (push_cast; omega)
                  | (rw [← List.count_eq_zero]; omega))
            | simp_all
      · exfalso
        omega
  | wrel i =>
    cases hg : s.writers.getD i false with
    | false =>
      simp only [stepOp, hg, rwrite_wrel_false]
      exact ⟨h1, h2, h3, h4, h5, h6, h7, h8, h9⟩
    | true =>
      have hcnt := countTrue_set_false_of_true _ _ hg
      have hpos := countTrue_pos_of_getD _ _ hg
      have hr0 : s.readers.count true = 0 := by
        by_contra hr
        exact h7 ⟨Nat.pos_of_ne_zero hr, hpos⟩
      have hw1 : s.writers.count true = 1 := by omega
      have h0 : s.lock.write_count - 1 = 0 := by omega
      simp only [stepOp, hg, rwrite_wrel_true, Inv]
      rw [h0]
      refine ⟨?_, ?_, ?_, ?_, ?_, ?_, ?_, ?_, ?_⟩ <;>
        first
          | trivial
          | assumption
          | omega
          | (push_cast; omega)
          | (simp_all <;>
              first
                | rfl
                | omega
                | (push_cast; omega)
                | (rw [← List.count_eq_zero]; omega))
          | simp_all

end RWLockWrite

namespace RWLockWrite

theorem rwrite_inv_run : ∀ (ops : List Op) (s : Sys), Inv s →
    LegalRun s ops → Inv (run s ops)
  | [], s, hs, _ => hs
  | op :: ops, s, hs, ⟨ha, hb⟩ =>
    rwrite_inv_run ops (stepOp s op) (rwrite_inv_step hs ha) hb

theorem rwrite_inv_init (nr nw : Nat) : Inv (initSys nr nw) := by
  refine ⟨rfl, rfl, rfl, ?_, ?_, ?_, ?_, ?_, ?_⟩ <;>
    simp [initSys, init, List.count_replicate]

end RWLockWrite

namespace RWLockFair

theorem rfair_rrel_false (l : LockSt) :
    _aReader.release false l = .error "cannot release un-acquired lock" := rfl

theorem rfair_rrel_true (l : LockSt) :
    _aReader.release true l =
      .ok ⟨false,
        { l with read_count := l.read_count - 1,
                 lock_write := if l.read_count - 1 = 0 then false
                               else l.lock_write,
                 lock_read_count := false },
        if l.read_count - 1 = 0 then
          [.acq .lock_read_count (-1) true, .dec .read_count,
           .rel .lock_write, .rel .lock_read_count]
        else
          [.acq .lock_read_count (-1) true, .dec .read_count,
           .rel .lock_read_count]⟩ := by
  by_cases h : l.read_count - 1 = 0 <;>
    simp [_aReader.release, h]

theorem rfair_wrel_false (l : LockSt) :
    _aWriter.release false l = .error "cannot release un-acquired lock" := rfl

theorem rfair_wrel_true (l : LockSt) :
    _aWriter.release true l =
      .ok ⟨false, { l with lock_write := false, lock_read := false },
        [.rel .lock_write, .rel .lock_read]⟩ := rfl

theorem rfair_inv_step {s : Sys} {op : Op} (hs : Inv s) (hl : legalOp s op) :
    Inv (stepOp s op) := by
  obtain ⟨h1, h2, h3, h4, h5, h6⟩ := hs
  cases op with
  | racq i env b t =>
    obtain ⟨hi, hg⟩ := hl
    rcases rfair_racq_cases env (s.readers.getD i false) s.lock b t ⟨0, 0⟩ with
      ⟨hok, hlg, hlock⟩ | ⟨hok, hlg, hR, hC, hcase⟩
    · simp only [stepOp, Inv]
      rw [hlock, hlg, hg, countTrue_set_false_of_false _ _ hg]
      exact ⟨h1, h2, h3, h4, h5, h6⟩
    · have hcnt := countTrue_set_true _ _ hi hg
      have hw0 : s.writers.count true = 0 := by
        rcases Nat.eq_zero_or_pos (s.writers.count true) with h | h
        · exact h
        · exact absurd (h2.mpr h) (by simp [hR])
      simp only [stepOp, Inv]
      rw [hlg, hcnt]
      rcases hcase with ⟨hc1, hW, hlock⟩ | ⟨hc1, hlock⟩
      · rw [hlock]
        refine ⟨?_, ?_, ?_, ?_, ?_, ?_⟩ <;>
          first
            | trivial
            | assumption
            | omega
            | (push_cast; omega)
            | (simp_all <;>
                first
                  | rfl
                  | omega
                  | (push_cast; omega)
                  | (rw [← List.count_eq_zero]; omega))
            | simp_all
      · have hrpos : 0 < s.readers.count true := by
          have hne : s.lock.read_count ≠ 0 := by omega
          rw [h3] at hne
          omega
        have hres : s.lock.lock_write = true := h6.mpr (Or.inl hrpos)
        rw [hlock]
        refine ⟨?_, ?_, ?_, ?_, ?_, ?_⟩ <;>
          first
            | trivial
            | assumption
            | omega
            | (push_cast; omega)
            | (simp_all <;>
                first
                  | rfl
                  | omega
                  | (push_cast; omega)
                  | (rw [← List.count_eq_zero]; omega))
            | simp_all
  | rrel i =>
    cases hg : s.readers.getD i false with
    | false =>
      simp only [stepOp, hg, rfair_rrel_false]
      exact ⟨h1, h2, h3, h4, h5, h6⟩
    | true =>
      have hcnt := countTrue_set_false_of_true _ _ hg
      have hpos := countTrue_pos_of_getD _ _ hg
      have hw0 : s.writers.count true = 0 := by
        by_contra hw1
        exact h5 ⟨hpos, Nat.pos_of_ne_zero hw1⟩
      have hlr : s.lock.lock_read = false := by
        rcases hb : s.lock.lock_read with _ | _
        · rfl
        · exact absurd (h2.mp hb) (by omega)
      simp only [stepOp, hg, rfair_rrel_true, Inv]
      by_cases h0 : s.lock.read_count - 1 = 0
      · have hc0 : (s.readers.set i false).count true = 0 := by omega
        rw [h0]
        refine ⟨?_, ?_, ?_, ?_, ?_, ?_⟩ <;>
          first
            | trivial
            | assumption
            | omega
            | (push_cast; omega)
            | (simp_all <;>
                first
                  | rfl
                  | omega
                  | (push_cast; omega)
                  | (rw [← List.count_eq_zero]; omega))
            | simp_all
      · have hcpos : 0 < (s.readers.set i false).count true := by omega
        have hres : s.lock.lock_write = true := h6.mpr (Or.inl hpos)
        rw [if_neg h0]
        refine ⟨?_, ?_, ?_, ?_, ?_, ?_⟩ <;>
          first
            | trivial
            | assumption
            | omega
            | (push_cast; omega)
            | (simp_all <;>
                first
                  | rfl
                  | omega
                  | (push_cast; omega)
                  | (rw [← List.count_eq_zero]; omega))
            | simp_all
  | wacq i env b t =>
    obtain ⟨hi, hg⟩ := hl
    rcases rfair_wacq_cases env (s.writers.getD i false) s.lock b t ⟨0, 0⟩ with
      ⟨hok, hlg, hlock⟩ | ⟨hok, hlg, hR, hW, hlock⟩
    · simp only [stepOp, Inv]
      rw [hlock, hlg, hg, countTrue_set_false_of_false _ _ hg]
      exact ⟨h1, h2, h3, h4, h5, h6⟩
    · have hcnt := countTrue_set_true _ _ hi hg
      have hr0 : s.readers.count true = 0 := by
        rcases Nat.eq_zero_or_pos (s.readers.count true) with h | h
        · exact h
        · exact absurd (h6.mpr (Or.inl h)) (by simp [hW])
      have hw0 : s.writers.count true = 0 := by
        rcases Nat.eq_zero_or_pos (s.writers.count true) with h | h
        · exact h
        · exact absurd (h6.mpr (Or.inr h)) (by simp [hW])
      simp only [stepOp, Inv]
      rw [hlg, hlock, hcnt]
      refine ⟨?_, ?_, ?_, ?_, ?_, ?_⟩ <;>
        first
          | trivial
          | assumption
          | omega
          | (push_cast; omega)
          | (simp_all <;>
              first
                | rfl
                | omega
                | (push_cast; omega)
                | (rw [← List.count_eq_zero]; omega))
          | simp_all
  | wrel i =>
    cases hg : s.writers.getD i false with
    | false =>
      simp only [stepOp, hg, rfair_wrel_false]
      exact ⟨h1, h2, h3, h4, h5, h6⟩
    | true =>
      have hcnt := countTrue_set_false_of_true _ _ hg
      have hpos := countTrue_pos_of_getD _ _ hg
      have hr0 : s.readers.count true = 0 := by
        by_contra hr
        exact h5 ⟨Nat.pos_of_ne_zero hr, hpos⟩
      simp only [stepOp, hg, rfair_wrel_true, Inv]
      refine ⟨?_, ?_, ?_, ?_, ?_, ?_⟩ <;>
        first
          | trivial
          | assumption
          | omega
          | (push_cast; omega)
          | (simp_all <;>
              first
                | rfl
                | omega
                | (push_cast; omega)
                | (rw [← List.count_eq_zero]; omega))
          | simp_all

theorem rfair_inv_run : ∀ (ops : List Op) (s : Sys), Inv s →
    LegalRun s ops → Inv (run s ops)
  | [], s, hs, _ => hs
  | op :: ops, s, hs, ⟨ha, hb⟩ =>
    rfair_inv_run ops (stepOp s op) (rfair_inv_step hs ha) hb

theorem rfair_inv_init (nr nw : Nat) : Inv (initSys nr nw) := by
  refine ⟨rfl, ?_, ?_, ?_, ?_, ?_⟩ <;>
    simp [initSys, init, List.count_replicate]

end RWLockFair

/-- C4: For every guard of every variant, calling `release()` while the
guard's `_locked` flag is false raises the usage error
"cannot release un-acquired lock".  The check is the first statement of
every `release`, so the error is raised before any mutation: the guard and
the lock state are untouched. -/
theorem claim_C4 :
    (∀ l, RWLockRead._aReader.release false l =
      .error "cannot release un-acquired lock") ∧
    (∀ l, RWLockRead._aWriter.release false l =
      .error "cannot release un-acquired lock") ∧
    (∀ l, RWLockWrite._aReader.release false l =
      .error "cannot release un-acquired lock") ∧
    (∀ l, RWLockWrite._aWriter.release false l =
      .error "cannot release un-acquired lock") ∧
    (∀ l, RWLockFair._aReader.release false l =
      .error "cannot release un-acquired lock") ∧
    (∀ l, RWLockFair._aWriter.release false l =
      .error "cannot release un-acquired lock") :=
  ⟨fun _ => rfl, fun _ => rfl, fun _ => rfl, fun _ => rfl, fun _ => rfl,
   fun _ => rfl⟩

/-- C1: For every lock variant and every guard (reader or writer), an
`acquire` call that returns false leaves the lock state unchanged net —
every counter (`read_count`, `write_count`) and every internal mutex is
exactly as before the call — and, when the guard's `_locked` flag was
false before the call, it remains false. -/
theorem claim_C1 :
    (∀ env locked0 l b t c,
      (RWLockRead._aReader.acquire env locked0 l b t c).ok = false →
      (RWLockRead._aReader.acquire env locked0 l b t c).lock = l ∧
      (locked0 = false →
        (RWLockRead._aReader.acquire env locked0 l b t c).locked = false)) ∧
    (∀ env locked0 l b t c,
      (RWLockRead._aWriter.acquire env locked0 l b t c).ok = false →
      (RWLockRead._aWriter.acquire env locked0 l b t c).lock = l ∧
      (locked0 = false →
        (RWLockRead._aWriter.acquire env locked0 l b t c).locked = false)) ∧
    (∀ env locked0 l b t c,
      (RWLockWrite._aReader.acquire env locked0 l b t c).ok = false →
      (RWLockWrite._aReader.acquire env locked0 l b t c).lock = l ∧
      (locked0 = false →
        (RWLockWrite._aReader.acquire env locked0 l b t c).locked = false)) ∧
    (∀ env locked0 l b t c,
      (RWLockWrite._aWriter.acquire env locked0 l b t c).ok = false →
      (RWLockWrite._aWriter.acquire env locked0 l b t c).lock = l ∧
      (locked0 = false →
        (RWLockWrite._aWriter.acquire env locked0 l b t c).locked = false)) ∧
    (∀ env locked0 l b t c,
      (RWLockFair._aReader.acquire env locked0 l b t c).ok = false →
      (RWLockFair._aReader.acquire env locked0 l b t c).lock = l ∧
      (locked0 = false →
        (RWLockFair._aReader.acquire env locked0 l b t c).locked = false)) ∧
    (∀ env locked0 l b t c,
      (RWLockFair._aWriter.acquire env locked0 l b t c).ok = false →
      (RWLockFair._aWriter.acquire env locked0 l b t c).lock = l ∧
      (locked0 = false →
        (RWLockFair._aWriter.acquire env locked0 l b t c).locked = false)) := by
  refine ⟨?_, ?_, ?_, ?_, ?_, ?_⟩ <;> intro env locked0 l b t c hok
  · rcases RWLockRead.rread_racq_cases env locked0 l b t c with
      ⟨_, hlg, hlock⟩ | ⟨ho, _, _, _⟩
    · exact ⟨hlock, fun h => hlg.trans h⟩
    · simp [ho] at hok
  · rcases RWLockRead.rread_wacq_cases env locked0 l b t c with ⟨hlg, hcase⟩
    rcases hcase with ⟨_, hlock⟩ | ⟨ho, _, _⟩
    · exact ⟨hlock, fun _ => hlg.trans hok⟩
    · simp [ho] at hok
  · rcases RWLockWrite.rwrite_racq_cases env locked0 l b t c with
      ⟨_, hlg, hlock⟩ | ⟨ho, _, _, _, _, _⟩
    · exact ⟨hlock, fun h => hlg.trans h⟩
    · simp [ho] at hok
  · rcases RWLockWrite.rwrite_wacq_cases env locked0 l b t c with
      ⟨_, hlg, hlock⟩ | ⟨ho, _, _, _, _⟩
    · exact ⟨hlock, fun h => hlg.trans h⟩
    · simp [ho] at hok
  · rcases RWLockFair.rfair_racq_cases env locked0 l b t c with
      ⟨_, hlg, hlock⟩ | ⟨ho, _, _, _, _⟩
    · exact ⟨hlock, fun h => hlg.trans h⟩
    · simp [ho] at hok
  · rcases RWLockFair.rfair_wacq_cases env locked0 l b t c with
      ⟨_, hlg, hlock⟩ | ⟨ho, _, _, _, _⟩
    · exact ⟨hlock, fun h => hlg.trans h⟩
    · simp [ho] at hok

/-- Witness for C1: with every timed wait failing and a zero timeout, each
of the six acquires returns false on the fresh lock, leaves the lock state
equal to the initial state, and leaves the flag false. -/
theorem claim_C1_witness :
    ((RWLockRead._aReader.acquire envFail false RWLockRead.init true 0
        c0).lock = RWLockRead.init ∧
      (RWLockRead._aReader.acquire envFail false RWLockRead.init true 0
        c0).locked = false) ∧
    ((RWLockRead._aWriter.acquire envFail false RWLockRead.init true 0
        c0).lock = RWLockRead.init ∧
      (RWLockRead._aWriter.acquire envFail false RWLockRead.init true 0
        c0).locked = false) ∧
    ((RWLockWrite._aReader.acquire envFail false RWLockWrite.init true 0
        c0).lock = RWLockWrite.init ∧
      (RWLockWrite._aReader.acquire envFail false RWLockWrite.init true 0
        c0).locked = false) ∧
    ((RWLockWrite._aWriter.acquire envFail false RWLockWrite.init true 0
        c0).lock = RWLockWrite.init ∧
      (RWLockWrite._aWriter.acquire envFail false RWLockWrite.init true 0
        c0).locked = false) ∧
    ((RWLockFair._aReader.acquire envFail false RWLockFair.init true 0
        c0).lock = RWLockFair.init ∧
      (RWLockFair._aReader.acquire envFail false RWLockFair.init true 0
        c0).locked = false) ∧
    ((RWLockFair._aWriter.acquire envFail false RWLockFair.init true 0
        c0).lock = RWLockFair.init ∧
      (RWLockFair._aWriter.acquire envFail false RWLockFair.init true 0
        c0).locked = false) :=
  ⟨⟨(claim_C1.1 envFail false RWLockRead.init true 0 c0 (by decide)).1,
    (claim_C1.1 envFail false RWLockRead.init true 0 c0 (by decide)).2 rfl⟩,
   ⟨(claim_C1.2.1 envFail false RWLockRead.init true 0 c0 (by decide)).1,
    (claim_C1.2.1 envFail false RWLockRead.init true 0 c0 (by decide)).2 rfl⟩,
   ⟨(claim_C1.2.2.1 envFail false RWLockWrite.init true 0 c0 (by decide)).1,
    (claim_C1.2.2.1 envFail false RWLockWrite.init true 0 c0
      (by decide)).2 rfl⟩,
   ⟨(claim_C1.2.2.2.1 envFail false RWLockWrite.init true 0 c0
      (by decide)).1,
    (claim_C1.2.2.2.1 envFail false RWLockWrite.init true 0 c0
      (by decide)).2 rfl⟩,
   ⟨(claim_C1.2.2.2.2.1 envFail false RWLockFair.init true 0 c0
      (by decide)).1,
    (claim_C1.2.2.2.2.1 envFail false RWLockFair.init true 0 c0
      (by decide)).2 rfl⟩,
   ⟨(claim_C1.2.2.2.2.2 envFail false RWLockFair.init true 0 c0
      (by decide)).1,
    (claim_C1.2.2.2.2.2 envFail false RWLockFair.init true 0 c0
      (by decide)).2 rfl⟩⟩

/-- C10: On the read-preferring writer guard, `acquire` returns exactly the
boolean returned by the underlying `resource.acquire` call and assigns that
boolean to `_locked` unconditionally, whatever the previous flag value.  In
particular a failed attempt on an already-locked guard resets `_locked` to
false while `resource` stays as it was (held), after which `locked()`
reports false and `release()` raises the usage error. -/
theorem claim_C10 (env : Env) (locked0 : Bool) (l : RWLockRead.LockSt)
    (b : Bool) (t : Int) (c : Ctx) :
    (RWLockRead._aWriter.acquire env locked0 l b t c).ok =
      mutexAcquire env c.ci l.resource b t ∧
    (RWLockRead._aWriter.acquire env locked0 l b t c).locked =
      (RWLockRead._aWriter.acquire env locked0 l b t c).ok ∧
    ((RWLockRead._aWriter.acquire env locked0 l b t c).ok = false →
      (RWLockRead._aWriter.acquire env locked0 l b t c).locked = false ∧
      (RWLockRead._aWriter.acquire env locked0 l b t c).lock.resource =
        l.resource ∧
      lockedMethod
        (RWLockRead._aWriter.acquire env locked0 l b t c).locked = false ∧
      RWLockRead._aWriter.release
          (RWLockRead._aWriter.acquire env locked0 l b t c).locked
          (RWLockRead._aWriter.acquire env locked0 l b t c).lock =
        .error "cannot release un-acquired lock") := by
  refine ⟨rfl, rfl, ?_⟩
  intro hok
  rcases RWLockRead.rread_wacq_cases env locked0 l b t c with ⟨hlg, hcase⟩
  rcases hcase with ⟨_, hlock⟩ | ⟨ho, _, _⟩
  · refine ⟨hlg.trans hok, by rw [hlock], ?_, ?_⟩
    · simp [lockedMethod, hlg, hok]
    · rw [hlg, hok]
      exact rfl
  · simp [ho] at hok

/-- Witness for C10: a guard that is locked (after a successful acquire,
`resource` held) whose second acquire fails under contention: the flag is
reset to false, `resource` stays held, and `release` now errors. -/
theorem claim_C10_witness :
    (RWLockRead._aWriter.acquire envFail true wLock1 true 0 c0).locked
      = false ∧
    (RWLockRead._aWriter.acquire envFail true wLock1 true 0 c0).lock.resource
      = wLock1.resource ∧
    lockedMethod
      (RWLockRead._aWriter.acquire envFail true wLock1 true 0 c0).locked
      = false ∧
    RWLockRead._aWriter.release
        (RWLockRead._aWriter.acquire envFail true wLock1 true 0 c0).locked
        (RWLockRead._aWriter.acquire envFail true wLock1 true 0 c0).lock
      = .error "cannot release un-acquired lock" :=
  (claim_C10 envFail true wLock1 true 0 c0).2.2 (by decide)

theorem mkDeadline_false_eq (env : Env) (c : Ctx) (t : Int) :
    mkDeadline env c false t = mkDeadline env c true 0 := by
  simp [mkDeadline, normTimeout]

/-- C8: For every guard of every variant, `__enter__` calls
`acquire(blocking=True, timeout=-1)`, and `__exit__` calls `release()` and
returns `False`, so an in-flight exception is never suppressed: whenever
the exit handler completes, its suppress component is false, and when
`release` raises, the exception path is taken instead. -/
theorem claim_C8 :
    ((∀ env locked0 l c, RWLockRead._aReader.enter env locked0 l c =
        RWLockRead._aReader.acquire env locked0 l true (-1) c) ∧
     (∀ locked0 l, RWLockRead._aReader.exitScope locked0 l =
        (RWLockRead._aReader.release locked0 l).map (fun r => (r, false))) ∧
     (∀ locked0 l, (RWLockRead._aReader.exitScope locked0 l).map Prod.snd =
        (RWLockRead._aReader.release locked0 l).map (fun _ => false))) ∧
    ((∀ env locked0 l c, RWLockRead._aWriter.enter env locked0 l c =
        RWLockRead._aWriter.acquire env locked0 l true (-1) c) ∧
     (∀ locked0 l, RWLockRead._aWriter.exitScope locked0 l =
        (RWLockRead._aWriter.release locked0 l).map (fun r => (r, false))) ∧
     (∀ locked0 l, (RWLockRead._aWriter.exitScope locked0 l).map Prod.snd =
        (RWLockRead._aWriter.release locked0 l).map (fun _ => false))) ∧
    ((∀ env locked0 l c, RWLockWrite._aReader.enter env locked0 l c =
        RWLockWrite._aReader.acquire env locked0 l true (-1) c) ∧
     (∀ locked0 l, RWLockWrite._aReader.exitScope locked0 l =
        (RWLockWrite._aReader.release locked0 l).map (fun r => (r, false))) ∧
     (∀ locked0 l, (RWLockWrite._aReader.exitScope locked0 l).map Prod.snd =
        (RWLockWrite._aReader.release locked0 l).map (fun _ => false))) ∧
    ((∀ env locked0 l c, RWLockWrite._aWriter.enter env locked0 l c =
        RWLockWrite._aWriter.acquire env locked0 l true (-1) c) ∧
     (∀ locked0 l, RWLockWrite._aWriter.exitScope locked0 l =
        (RWLockWrite._aWriter.release locked0 l).map (fun r => (r, false))) ∧
     (∀ locked0 l, (RWLockWrite._aWriter.exitScope locked0 l).map Prod.snd =
        (RWLockWrite._aWriter.release locked0 l).map (fun _ => false))) ∧
    ((∀ env locked0 l c, RWLockFair._aReader.enter env locked0 l c =
        RWLockFair._aReader.acquire env locked0 l true (-1) c) ∧
     (∀ locked0 l, RWLockFair._aReader.exitScope locked0 l =
        (RWLockFair._aReader.release locked0 l).map (fun r => (r, false))) ∧
     (∀ locked0 l, (RWLockFair._aReader.exitScope locked0 l).map Prod.snd =
        (RWLockFair._aReader.release locked0 l).map (fun _ => false))) ∧
    ((∀ env locked0 l c, RWLockFair._aWriter.enter env locked0 l c =
        RWLockFair._aWriter.acquire env locked0 l true (-1) c) ∧
     (∀ locked0 l, RWLockFair._aWriter.exitScope locked0 l =
        (RWLockFair._aWriter.release locked0 l).map (fun r => (r, false))) ∧
     (∀ locked0 l, (RWLockFair._aWriter.exitScope locked0 l).map Prod.snd =
        (RWLockFair._aWriter.release locked0 l).map (fun _ => false))) := by
  refine ⟨⟨fun _ _ _ _ => rfl, fun _ _ => rfl, ?_⟩,
          ⟨fun _ _ _ _ => rfl, fun _ _ => rfl, ?_⟩,
          ⟨fun _ _ _ _ => rfl, fun _ _ => rfl, ?_⟩,
          ⟨fun _ _ _ _ => rfl, fun _ _ => rfl, ?_⟩,
          ⟨fun _ _ _ _ => rfl, fun _ _ => rfl, ?_⟩,
          ⟨fun _ _ _ _ => rfl, fun _ _ => rfl, ?_⟩⟩ <;>
    intro locked0 l
  · rcases h : RWLockRead._aReader.release locked0 l <;>
      simp only [RWLockRead._aReader.exitScope, h] <;> rfl
  · rcases h : RWLockRead._aWriter.release locked0 l <;>
      simp only [RWLockRead._aWriter.exitScope, h] <;> rfl
  · rcases h : RWLockWrite._aReader.release locked0 l <;>
      simp only [RWLockWrite._aReader.exitScope, h] <;> rfl
  · rcases h : RWLockWrite._aWriter.release locked0 l <;>
      simp only [RWLockWrite._aWriter.exitScope, h] <;> rfl
  · rcases h : RWLockFair._aReader.release locked0 l <;>
      simp only [RWLockFair._aReader.exitScope, h] <;> rfl
  · rcases h : RWLockFair._aWriter.release locked0 l <;>
      simp only [RWLockFair._aWriter.exitScope, h] <;> rfl

/-- C6: For every guard of every variant, `acquire(blocking=False,
timeout=t)` behaves exactly like `acquire(blocking=True, timeout=0)`: for
the five multi-stage acquires the two calls are literally the same function
of the oracle (the normalized timeout is 0 in both cases), and for the
read-preferring pass-through writer the result, the flag, the lock state
and the counters agree for every oracle satisfying the section-4.1 mutex
contract (an immediate try and a zero-length wait return the same
outcome). -/
theorem claim_C6 (env : Env) (hc : env.contract) :
    (∀ locked0 l t c, RWLockRead._aReader.acquire env locked0 l false t c =
      RWLockRead._aReader.acquire env locked0 l true 0 c) ∧
    (∀ locked0 l t c,
      (RWLockRead._aWriter.acquire env locked0 l false t c).ok =
        (RWLockRead._aWriter.acquire env locked0 l true 0 c).ok ∧
      (RWLockRead._aWriter.acquire env locked0 l false t c).locked =
        (RWLockRead._aWriter.acquire env locked0 l true 0 c).locked ∧
      (RWLockRead._aWriter.acquire env locked0 l false t c).lock =
        (RWLockRead._aWriter.acquire env locked0 l true 0 c).lock ∧
      (RWLockRead._aWriter.acquire env locked0 l false t c).c =
        (RWLockRead._aWriter.acquire env locked0 l true 0 c).c) ∧
    (∀ locked0 l t c, RWLockWrite._aReader.acquire env locked0 l false t c =
      RWLockWrite._aReader.acquire env locked0 l true 0 c) ∧
    (∀ locked0 l t c, RWLockWrite._aWriter.acquire env locked0 l false t c =
      RWLockWrite._aWriter.acquire env locked0 l true 0 c) ∧
    (∀ locked0 l t c, RWLockFair._aReader.acquire env locked0 l false t c =
      RWLockFair._aReader.acquire env locked0 l true 0 c) ∧
    (∀ locked0 l t c, RWLockFair._aWriter.acquire env locked0 l false t c =
      RWLockFair._aWriter.acquire env locked0 l true 0 c) := by
  have hpass : ∀ ci held,
      mutexAcquire env ci held false 99 = mutexAcquire env ci held true 0 := by
    intro ci held
    simp [mutexAcquire, hc ci]
  refine ⟨?_, ?_, ?_, ?_, ?_, ?_⟩ <;> intro locked0 l t c
  · simp only [RWLockRead._aReader.acquire, mkDeadline_false_eq]
  · have h : mutexAcquire env c.ci l.resource false t =
        mutexAcquire env c.ci l.resource true 0 := by
      simp [mutexAcquire, hc c.ci]
    simp only [RWLockRead._aWriter.acquire, h]
    exact ⟨trivial, trivial, trivial, trivial⟩
  · simp only [RWLockWrite._aReader.acquire, mkDeadline_false_eq]
  · simp only [RWLockWrite._aWriter.acquire, mkDeadline_false_eq]
  · simp only [RWLockFair._aReader.acquire, mkDeadline_false_eq]
  · simp only [RWLockFair._aWriter.acquire, mkDeadline_false_eq]

/-- Witness for C6: a concrete oracle satisfying the mutex contract, on
which a non-blocking acquire with a stray timeout of 5 and a blocking
acquire with timeout 0 coincide on the fresh lock. -/
theorem claim_C6_witness :
    (RWLockRead._aReader.acquire envFail false RWLockRead.init false 5 c0 =
      RWLockRead._aReader.acquire envFail false RWLockRead.init true 0 c0) ∧
    (RWLockRead._aWriter.acquire envFail false RWLockRead.init false 5
        c0).ok =
      (RWLockRead._aWriter.acquire envFail false RWLockRead.init true 0
        c0).ok ∧
    (RWLockWrite._aWriter.acquire envOK false RWLockWrite.init false 5 c0 =
      RWLockWrite._aWriter.acquire envOK false RWLockWrite.init true 0 c0) :=
  ⟨(claim_C6 envFail (fun _ => rfl)).1 false RWLockRead.init 5 c0,
   ((claim_C6 envFail (fun _ => rfl)).2.1 false RWLockRead.init 5 c0).1,
   (claim_C6 envOK (fun _ => rfl)).2.2.2.1 false RWLockWrite.init 5 c0⟩

theorem rwrite_racq_trace (env : Env) (locked0 : Bool)
    (l : RWLockWrite.LockSt) (b : Bool) (t : Int) (c : Ctx) :
    (trShape (RWLockWrite._aReader.acquire env locked0 l b t c).tr =
        [.acq .lock_read_entry false] ∧
      (RWLockWrite._aReader.acquire env locked0 l b t c).ok = false) ∨
    (trShape (RWLockWrite._aReader.acquire env locked0 l b t c).tr =
        [.acq .lock_read_entry true, .acq .lock_read_try false,
         .rel .lock_read_entry] ∧
      (RWLockWrite._aReader.acquire env locked0 l b t c).ok = false) ∨
    (trShape (RWLockWrite._aReader.acquire env locked0 l b t c).tr =
        [.acq .lock_read_entry true, .acq .lock_read_try true,
         .acq .lock_read_count false, .rel .lock_read_try,
         .rel .lock_read_entry] ∧
      (RWLockWrite._aReader.acquire env locked0 l b t c).ok = false) ∨
    (trShape (RWLockWrite._aReader.acquire env locked0 l b t c).tr =
        [.acq .lock_read_entry true, .acq .lock_read_try true,
         .acq .lock_read_count true, .inc .read_count, .acq .resource false,
         .rel .lock_read_try, .rel .lock_read_entry, .dec .read_count,
         .rel .lock_read_count] ∧
      (RWLockWrite._aReader.acquire env locked0 l b t c).ok = false) ∨
    (trShape (RWLockWrite._aReader.acquire env locked0 l b t c).tr =
        [.acq .lock_read_entry true, .acq .lock_read_try true,
         .acq .lock_read_count true, .inc .read_count, .acq .resource true,
         .rel .lock_read_count, .rel .lock_read_try,
         .rel .lock_read_entry] ∧
      (RWLockWrite._aReader.acquire env locked0 l b t c).ok = true) ∨
    (trShape (RWLockWrite._aReader.acquire env locked0 l b t c).tr =
        [.acq .lock_read_entry true, .acq .lock_read_try true,
         .acq .lock_read_count true, .inc .read_count,
         .rel .lock_read_count, .rel .lock_read_try,
         .rel .lock_read_entry] ∧
      (RWLockWrite._aReader.acquire env locked0 l b t c).ok = true) := by
  simp only [RWLockWrite._aReader.acquire]
  split
  · left
    exact ⟨by simp [trShape, Ev.shape], rfl⟩
  · split
    · right; left
      exact ⟨by simp [trShape, Ev.shape], rfl⟩
    · split
      · right; right; left
        exact ⟨by simp [trShape, Ev.shape], rfl⟩
      · split
        · split
          · right; right; right; left
            exact ⟨by simp [trShape, Ev.shape], rfl⟩
          · right; right; right; right; left
            exact ⟨by simp [trShape, Ev.shape], rfl⟩
        · right; right; right; right; right
          exact ⟨by simp [trShape, Ev.shape], rfl⟩

theorem rwrite_wacqTail_trace (env : Env) (dl : Option Int) (locked0 : Bool)
    (lT : RWLockWrite.LockSt) (trT : List Ev) (c : Ctx) :
    (trShape (RWLockWrite._aWriter.acquireTail env dl locked0 lT trT c).tr =
        trShape trT ++ [.rel .lock_write_count, .acq .resource false,
          .acq .lock_write_count true, .dec .write_count,
          .rel .lock_read_try, .rel .lock_write_count] ∧
      (RWLockWrite._aWriter.acquireTail env dl locked0 lT trT c).ok = false ∧
      lT.write_count - 1 = 0) ∨
    (trShape (RWLockWrite._aWriter.acquireTail env dl locked0 lT trT c).tr =
        trShape trT ++ [.rel .lock_write_count, .acq .resource false,
          .acq .lock_write_count true, .dec .write_count,
          .rel .lock_write_count] ∧
      (RWLockWrite._aWriter.acquireTail env dl locked0 lT trT c).ok = false ∧
      lT.write_count - 1 ≠ 0) ∨
    (trShape (RWLockWrite._aWriter.acquireTail env dl locked0 lT trT c).tr =
        trShape trT ++ [.rel .lock_write_count, .acq .resource true] ∧
      (RWLockWrite._aWriter.acquireTail env dl locked0 lT trT c).ok =
        true) := by
  simp only [RWLockWrite._aWriter.acquireTail]
  split
  · split
    · next h0 =>
      left
      exact ⟨by simp [trShape, Ev.shape], rfl, by simpa using h0⟩
    · next h0 =>
      right; left
      exact ⟨by simp [trShape, Ev.shape], rfl, by simpa using h0⟩
  · right; right
    exact ⟨by simp [trShape, Ev.shape], rfl⟩

theorem rwrite_wacq_trace (env : Env) (locked0 : Bool)
    (l : RWLockWrite.LockSt) (b : Bool) (t : Int) (c : Ctx) :
    (trShape (RWLockWrite._aWriter.acquire env locked0 l b t c).tr =
        [.acq .lock_write_count false] ∧
      (RWLockWrite._aWriter.acquire env locked0 l b t c).ok = false) ∨
    (trShape (RWLockWrite._aWriter.acquire env locked0 l b t c).tr =
        [.acq .lock_write_count true, .inc .write_count,
         .acq .lock_read_try false, .dec .write_count,
         .rel .lock_write_count] ∧
      (RWLockWrite._aWriter.acquire env locked0 l b t c).ok = false ∧
      l.write_count + 1 = 1) ∨
    (trShape (RWLockWrite._aWriter.acquire env locked0 l b t c).tr =
        [.acq .lock_write_count true, .inc .write_count,
         .acq .lock_read_try true, .rel .lock_write_count,
         .acq .resource false, .acq .lock_write_count true,
         .dec .write_count, .rel .lock_read_try, .rel .lock_write_count] ∧
      (RWLockWrite._aWriter.acquire env locked0 l b t c).ok = false ∧
      l.write_count + 1 = 1) ∨
    (trShape (RWLockWrite._aWriter.acquire env locked0 l b t c).tr =
        [.acq .lock_write_count true, .inc .write_count,
         .acq .lock_read_try true, .rel .lock_write_count,
         .acq .resource true] ∧
      (RWLockWrite._aWriter.acquire env locked0 l b t c).ok = true ∧
      l.write_count + 1 = 1) ∨
    (trShape (RWLockWrite._aWriter.acquire env locked0 l b t c).tr =
        [.acq .lock_write_count true, .inc .write_count,
         .rel .lock_write_count, .acq .resource false,
         .acq .lock_write_count true, .dec .write_count,
         .rel .lock_write_count] ∧
      (RWLockWrite._aWriter.acquire env locked0 l b t c).ok = false ∧
      l.write_count + 1 ≠ 1) ∨
    (trShape (RWLockWrite._aWriter.acquire env locked0 l b t c).tr =
        [.acq .lock_write_count true, .inc .write_count,
         .rel .lock_write_count, .acq .resource true] ∧
      (RWLockWrite._aWriter.acquire env locked0 l b t c).ok = true ∧
      l.write_count + 1 ≠ 1) := by
  simp only [RWLockWrite._aWriter.acquire]
  split
  · left
    exact ⟨by simp [trShape, Ev.shape], rfl⟩
  · split
    · next hwc =>
      have hwc1 : l.write_count + 1 = 1 := by simpa using hwc
      split
      · right; left
        exact ⟨by simp [trShape, Ev.shape], rfl, hwc1⟩
      · rcases rwrite_wacqTail_trace env (mkDeadline env c b t).1 locked0
            { l with lock_write_count := true,
                     write_count := l.write_count + 1,
                     lock_read_try := true }
            ([.acq .lock_write_count
                (subAcq env (mkDeadline env c b t).1 l.lock_write_count
                  (mkDeadline env c b t).2).2.1 true, .inc .write_count] ++
              [.acq .lock_read_try
                (subAcq env (mkDeadline env c b t).1
                  ({ l with lock_write_count := true,
                            write_count := l.write_count + 1 } :
                    RWLockWrite.LockSt).lock_read_try
                  (subAcq env (mkDeadline env c b t).1 l.lock_write_count
                    (mkDeadline env c b t).2).2.2).2.1 true])
            (subAcq env (mkDeadline env c b t).1
              ({ l with lock_write_count := true,
                        write_count := l.write_count + 1 } :
                RWLockWrite.LockSt).lock_read_try
              (subAcq env (mkDeadline env c b t).1 l.lock_write_count
                (mkDeadline env c b t).2).2.2).2.2 with
          ⟨htr, hok, h0⟩ | ⟨htr, hok, h0⟩ | ⟨htr, hok⟩
        · right; right; left
          refine ⟨?_, hok, hwc1⟩
          rw [htr]
          simp [trShape, Ev.shape]
        · exfalso
          simp only at h0
          omega
        · right; right; right; left
          refine ⟨?_, hok, hwc1⟩
          rw [htr]
          simp [trShape, Ev.shape]
    · next hwc =>
      have hwc1 : l.write_count + 1 ≠ 1 := by simpa using hwc
      rcases rwrite_wacqTail_trace env (mkDeadline env c b t).1 locked0
          { l with lock_write_count := true,
                   write_count := l.write_count + 1 }
          [.acq .lock_write_count
            (subAcq env (mkDeadline env c b t).1 l.lock_write_count
              (mkDeadline env c b t).2).2.1 true, .inc .write_count]
          (subAcq env (mkDeadline env c b t).1 l.lock_write_count
            (mkDeadline env c b t).2).2.2 with
        ⟨htr, hok, h0⟩ | ⟨htr, hok, h0⟩ | ⟨htr, hok⟩
      · exfalso
        simp only at h0
        omega
      · right; right; right; right; left
        refine ⟨?_, hok, hwc1⟩
        rw [htr]
        simp [trShape, Ev.shape]
      · right; right; right; right; right
        refine ⟨?_, hok, hwc1⟩
        rw [htr]
        simp [trShape, Ev.shape]

/-- C2 counterexample: in the write-preferring reader acquire, run the
concrete scenario in which `lock_read_entry`, `lock_read_try` and
`lock_read_count` are taken and the `resource` step fails.  The claim says
the state built so far is undone in exact LIFO order — undo `read_count`
first, then `lock_read_count`, then `lock_read_try`, then
`lock_read_entry` — but the code releases `lock_read_try` and
`lock_read_entry` first, so the produced trace differs from the exact-LIFO
trace. -/
theorem claim_C2_counterexample :
    trShape (RWLockWrite._aReader.acquire (envUpTo 3) false RWLockWrite.init
        true 0 c0).tr ≠
      [.acq .lock_read_entry true, .acq .lock_read_try true,
       .acq .lock_read_count true, .inc .read_count, .acq .resource false,
       .dec .read_count, .rel .lock_read_count, .rel .lock_read_try,
       .rel .lock_read_entry] := by decide

/-- C2 (amended): in the write-preferring reader acquire, when the step
that takes `resource` fails (after `lock_read_entry`, `lock_read_try`,
`lock_read_count` were taken and `read_count` was incremented), the undo
runs in the order `lock_read_try.release, lock_read_entry.release,
read_count -= 1, lock_read_count.release` — not the exact reverse of the
build order — and the call returns false with every counter and mutex net
restored to its value before the call. -/
theorem claim_C2 (env : Env) (locked0 : Bool) (l : RWLockWrite.LockSt)
    (b : Bool) (t : Int) (c : Ctx) :
    EvShape.acq .resource false ∈
      trShape (RWLockWrite._aReader.acquire env locked0 l b t c).tr →
    (RWLockWrite._aReader.acquire env locked0 l b t c).ok = false ∧
    (RWLockWrite._aReader.acquire env locked0 l b t c).lock = l ∧
    trShape (RWLockWrite._aReader.acquire env locked0 l b t c).tr =
      [.acq .lock_read_entry true, .acq .lock_read_try true,
       .acq .lock_read_count true, .inc .read_count, .acq .resource false,
       .rel .lock_read_try, .rel .lock_read_entry, .dec .read_count,
       .rel .lock_read_count] := by
  intro hmem
  rcases rwrite_racq_trace env locked0 l b t c with
    ⟨htr, hok⟩ | ⟨htr, hok⟩ | ⟨htr, hok⟩ | ⟨htr, hok⟩ | ⟨htr, hok⟩ |
    ⟨htr, hok⟩
  · rw [htr] at hmem
    simp at hmem
  · rw [htr] at hmem
    simp at hmem
  · rw [htr] at hmem
    simp at hmem
  · refine ⟨hok, ?_, htr⟩
    rcases RWLockWrite.rwrite_racq_cases env locked0 l b t c with
      ⟨_, _, hlock⟩ | ⟨ho, _, _, _, _, _⟩
    · exact hlock
    · simp [ho] at hok
  · rw [htr] at hmem
    simp at hmem
  · rw [htr] at hmem
    simp at hmem

/-- Witness for C2 (amended): the concrete failing run from the
counterexample satisfies the membership hypothesis, returns false, restores
the initial state, and produces exactly the undo order of the code. -/
theorem claim_C2_witness :
    (RWLockWrite._aReader.acquire (envUpTo 3) false RWLockWrite.init true 0
      c0).ok = false ∧
    (RWLockWrite._aReader.acquire (envUpTo 3) false RWLockWrite.init true 0
      c0).lock = RWLockWrite.init ∧
    trShape (RWLockWrite._aReader.acquire (envUpTo 3) false RWLockWrite.init
        true 0 c0).tr =
      [.acq .lock_read_entry true, .acq .lock_read_try true,
       .acq .lock_read_count true, .inc .read_count, .acq .resource false,
       .rel .lock_read_try, .rel .lock_read_entry, .dec .read_count,
       .rel .lock_read_count] :=
  claim_C2 (envUpTo 3) false RWLockWrite.init true 0 c0 (by decide)

/-- C3: the write-preferring writer acquire follows the documented
protocol.  On success: take `lock_write_count`, increment `write_count`
(taking `lock_read_try` when it becomes 1), release `lock_write_count`,
take `resource`, set `_locked`, return true.  When the `resource` step
fails: re-take `lock_write_count`, decrement `write_count`, release
`lock_read_try` when the count reaches 0, release `lock_write_count`, and
return false with the lock state net restored. -/
theorem claim_C3 (env : Env) (locked0 : Bool) (l : RWLockWrite.LockSt)
    (b : Bool) (t : Int) (c : Ctx) :
    ((RWLockWrite._aWriter.acquire env locked0 l b t c).ok = true →
      (RWLockWrite._aWriter.acquire env locked0 l b t c).locked = true ∧
      trShape (RWLockWrite._aWriter.acquire env locked0 l b t c).tr =
        (if l.write_count + 1 = 1 then
          [.acq .lock_write_count true, .inc .write_count,
           .acq .lock_read_try true, .rel .lock_write_count,
           .acq .resource true]
         else
          [.acq .lock_write_count true, .inc .write_count,
           .rel .lock_write_count, .acq .resource true]) ∧
      (RWLockWrite._aWriter.acquire env locked0 l b t c).lock =
        (if l.write_count + 1 = 1 then
          { l with write_count := l.write_count + 1, lock_read_try := true,
                   resource := true }
         else
          { l with write_count := l.write_count + 1, resource := true })) ∧
    (EvShape.acq .resource false ∈
        trShape (RWLockWrite._aWriter.acquire env locked0 l b t c).tr →
      (RWLockWrite._aWriter.acquire env locked0 l b t c).ok = false ∧
      (RWLockWrite._aWriter.acquire env locked0 l b t c).lock = l ∧
      trShape (RWLockWrite._aWriter.acquire env locked0 l b t c).tr =
        (if l.write_count + 1 = 1 then
          [.acq .lock_write_count true, .inc .write_count,
           .acq .lock_read_try true, .rel .lock_write_count,
           .acq .resource false, .acq .lock_write_count true,
           .dec .write_count, .rel .lock_read_try, .rel .lock_write_count]
         else
          [.acq .lock_write_count true, .inc .write_count,
           .rel .lock_write_count, .acq .resource false,
           .acq .lock_write_count true, .dec .write_count,
           .rel .lock_write_count])) := by
  constructor
  · intro hok
    rcases rwrite_wacq_trace env locked0 l b t c with
      ⟨htr, ho⟩ | ⟨htr, ho, hwc⟩ | ⟨htr, ho, hwc⟩ | ⟨htr, ho, hwc⟩ |
      ⟨htr, ho, hwc⟩ | ⟨htr, ho, hwc⟩
    · simp [ho] at hok
    · simp [ho] at hok
    · simp [ho] at hok
    · rcases RWLockWrite.rwrite_wacq_cases env locked0 l b t c with
        ⟨ho2, _, _⟩ | ⟨_, hlg, _, _, hcase⟩
      · simp [ho2] at hok
      · refine ⟨hlg, by rw [htr, if_pos hwc], ?_⟩
        rcases hcase with ⟨_, _, hlock⟩ | ⟨hne, _⟩
        · rw [hlock, if_pos hwc]
        · exact absurd hwc hne
    · simp [ho] at hok
    · rcases RWLockWrite.rwrite_wacq_cases env locked0 l b t c with
        ⟨ho2, _, _⟩ | ⟨_, hlg, _, _, hcase⟩
      · simp [ho2] at hok
      · refine ⟨hlg, by rw [htr, if_neg hwc], ?_⟩
        rcases hcase with ⟨heq, _, _⟩ | ⟨_, hlock⟩
        · exact absurd heq hwc
        · rw [hlock, if_neg hwc]
  · intro hmem
    rcases rwrite_wacq_trace env locked0 l b t c with
      ⟨htr, ho⟩ | ⟨htr, ho, hwc⟩ | ⟨htr, ho, hwc⟩ | ⟨htr, ho, hwc⟩ |
      ⟨htr, ho, hwc⟩ | ⟨htr, ho, hwc⟩
    · rw [htr] at hmem
      simp at hmem
    · rw [htr] at hmem
      simp at hmem
    · refine ⟨ho, ?_, by rw [htr, if_pos hwc]⟩
      rcases RWLockWrite.rwrite_wacq_cases env locked0 l b t c with
        ⟨_, _, hlock⟩ | ⟨ho2, _, _, _, _⟩
      · exact hlock
      · simp [ho2] at ho
    · rw [htr] at hmem
      simp at hmem
    · refine ⟨ho, ?_, by rw [htr, if_neg hwc]⟩
      rcases RWLockWrite.rwrite_wacq_cases env locked0 l b t c with
        ⟨_, _, hlock⟩ | ⟨ho2, _, _, _, _⟩
      · exact hlock
      · simp [ho2] at ho
    · rw [htr] at hmem
      simp at hmem

/-- Witness for C3: a successful first-writer acquire (all waits succeed)
and a failing one (first two waits succeed, the `resource` wait fails) on
the fresh lock. -/
theorem claim_C3_witness :
    ((RWLockWrite._aWriter.acquire envOK false RWLockWrite.init true 0
        c0).locked = true ∧
      trShape (RWLockWrite._aWriter.acquire envOK false RWLockWrite.init
          true 0 c0).tr =
        [.acq .lock_write_count true, .inc .write_count,
         .acq .lock_read_try true, .rel .lock_write_count,
         .acq .resource true]) ∧
    ((RWLockWrite._aWriter.acquire (envUpTo 2) false RWLockWrite.init true 0
        c0).ok = false ∧
      trShape (RWLockWrite._aWriter.acquire (envUpTo 2) false
          RWLockWrite.init true 0 c0).tr =
        [.acq .lock_write_count true, .inc .write_count,
         .acq .lock_read_try true, .rel .lock_write_count,
         .acq .resource false, .acq .lock_write_count true,
         .dec .write_count, .rel .lock_read_try, .rel .lock_write_count]) :=
  ⟨⟨((claim_C3 envOK false RWLockWrite.init true 0 c0).1 (by decide)).1,
    by
      have h :=
        ((claim_C3 envOK false RWLockWrite.init true 0 c0).1 (by decide)).2.1
      simpa using h⟩,
   ⟨((claim_C3 (envUpTo 2) false RWLockWrite.init true 0 c0).2
      (by decide)).1,
    by
      have h :=
        ((claim_C3 (envUpTo 2) false RWLockWrite.init true 0 c0).2
          (by decide)).2.2
      simpa using h⟩⟩

theorem subAcq_none_eq (env : Env) (held : Bool) (c : Ctx) :
    subAcq env none held c =
      (mutexAcquire env c.ci held true (-1), -1, ⟨c.ci + 1, c.ti⟩) := rfl

theorem rread_racq_indefinite (env : Env) (locked0 : Bool)
    (l : RWLockRead.LockSt) (t : Int) (c : Ctx) (ht : t < 0) :
    allNeg1 (acqTimeouts
      (RWLockRead._aReader.acquire env locked0 l true t c).tr) = true := by
  have hd : mkDeadline env c true t = (none, c) := by
    simp [mkDeadline, normTimeout, ht]
  simp only [RWLockRead._aReader.acquire, hd, subAcq_none_eq]
  repeat' split
  all_goals simp [allNeg1, acqTimeouts]

theorem rwrite_racq_indefinite (env : Env) (locked0 : Bool)
    (l : RWLockWrite.LockSt) (t : Int) (c : Ctx) (ht : t < 0) :
    allNeg1 (acqTimeouts
      (RWLockWrite._aReader.acquire env locked0 l true t c).tr) = true := by
  have hd : mkDeadline env c true t = (none, c) := by
    simp [mkDeadline, normTimeout, ht]
  simp only [RWLockWrite._aReader.acquire, hd, subAcq_none_eq]
  repeat' split
  all_goals simp [allNeg1, acqTimeouts]

theorem rwrite_wacq_indefinite (env : Env) (locked0 : Bool)
    (l : RWLockWrite.LockSt) (t : Int) (c : Ctx) (ht : t < 0) :
    allNeg1 (acqTimeouts
      (RWLockWrite._aWriter.acquire env locked0 l true t c).tr) = true := by
  have hd : mkDeadline env c true t = (none, c) := by
    simp [mkDeadline, normTimeout, ht]
  simp only [RWLockWrite._aWriter.acquire,
    RWLockWrite._aWriter.acquireTail, hd, subAcq_none_eq]
  repeat' split
  all_goals simp [allNeg1, acqTimeouts]

theorem rfair_racq_indefinite (env : Env) (locked0 : Bool)
    (l : RWLockFair.LockSt) (t : Int) (c : Ctx) (ht : t < 0) :
    allNeg1 (acqTimeouts
      (RWLockFair._aReader.acquire env locked0 l true t c).tr) = true := by
  have hd : mkDeadline env c true t = (none, c) := by
    simp [mkDeadline, normTimeout, ht]
  simp only [RWLockFair._aReader.acquire, hd, subAcq_none_eq]
  repeat' split
  all_goals simp [allNeg1, acqTimeouts]

theorem rfair_wacq_indefinite (env : Env) (locked0 : Bool)
    (l : RWLockFair.LockSt) (t : Int) (c : Ctx) (ht : t < 0) :
    allNeg1 (acqTimeouts
      (RWLockFair._aWriter.acquire env locked0 l true t c).tr) = true := by
  have hd : mkDeadline env c true t = (none, c) := by
    simp [mkDeadline, normTimeout, ht]
  simp only [RWLockFair._aWriter.acquire, hd, subAcq_none_eq]
  repeat' split
  all_goals simp [allNeg1, acqTimeouts]

/-- C5: every multi-stage acquire normalizes `(blocking, timeout)` into a
single deadline at entry — blocking with a negative timeout gives the
indefinite deadline (and then every sub-acquire of the call, undo paths
included, is issued with `-1`); blocking with `timeout ≥ 0` gives
`deadline = now + timeout`; not blocking gives `deadline = now` — and
every sub-acquire against a finite deadline is issued with the remaining
budget `max 0 (deadline - now)` at the current clock reading. -/
theorem claim_C5 :
    (∀ env (c : Ctx) (t : Int), t < 0 →
      mkDeadline env c true t = (none, c)) ∧
    (∀ env (c : Ctx) (t : Int), 0 ≤ t →
      mkDeadline env c true t =
        (some (env.time c.ti + t), ⟨c.ci, c.ti + 1⟩)) ∧
    (∀ env (c : Ctx) (t : Int), mkDeadline env c false t =
      (some (env.time c.ti), ⟨c.ci, c.ti + 1⟩)) ∧
    (∀ env (d : Int) (c : Ctx), subTimeout env (some d) c =
      (max 0 (d - env.time c.ti), ⟨c.ci, c.ti + 1⟩)) ∧
    (∀ env (c : Ctx), subTimeout env none c = (-1, c)) ∧
    (∀ env locked0 l (t : Int) c, t < 0 →
      allNeg1 (acqTimeouts
        (RWLockRead._aReader.acquire env locked0 l true t c).tr) = true) ∧
    (∀ env locked0 l (t : Int) c, t < 0 →
      allNeg1 (acqTimeouts
        (RWLockWrite._aReader.acquire env locked0 l true t c).tr) = true) ∧
    (∀ env locked0 l (t : Int) c, t < 0 →
      allNeg1 (acqTimeouts
        (RWLockWrite._aWriter.acquire env locked0 l true t c).tr) = true) ∧
    (∀ env locked0 l (t : Int) c, t < 0 →
      allNeg1 (acqTimeouts
        (RWLockFair._aReader.acquire env locked0 l true t c).tr) = true) ∧
    (∀ env locked0 l (t : Int) c, t < 0 →
      allNeg1 (acqTimeouts
        (RWLockFair._aWriter.acquire env locked0 l true t c).tr) = true) := by
  refine ⟨?_, ?_, ?_, fun _ _ _ => rfl, fun _ _ => rfl,
    fun env locked0 l t c ht => rread_racq_indefinite env locked0 l t c ht,
    fun env locked0 l t c ht => rwrite_racq_indefinite env locked0 l t c ht,
    fun env locked0 l t c ht => rwrite_wacq_indefinite env locked0 l t c ht,
    fun env locked0 l t c ht => rfair_racq_indefinite env locked0 l t c ht,
    fun env locked0 l t c ht => rfair_wacq_indefinite env locked0 l t c ht⟩
  · intro env c t ht
    simp [mkDeadline, normTimeout, ht]
  · intro env c t ht
    simp [mkDeadline, normTimeout, not_lt.mpr ht]
  · intro env c t
    simp [mkDeadline, normTimeout]

/-- Witness for C5: concrete instantiations — an indefinite deadline on a
blocking call with timeout `-7`, a finite deadline `now + 4`, a
non-blocking deadline `now`, a sliced budget, and the all-`-1` property of
a concrete indefinite multi-stage run. -/
theorem claim_C5_witness :
    mkDeadline envOK c0 true (-7) = (none, c0) ∧
    mkDeadline envOK c0 true 4 = (some (envOK.time 0 + 4), ⟨0, 1⟩) ∧
    mkDeadline envOK c0 false 9 = (some (envOK.time 0), ⟨0, 1⟩) ∧
    subTimeout envOK (some 4) c0 = (max 0 (4 - envOK.time 0), ⟨0, 1⟩) ∧
    subTimeout envOK none c0 = (-1, c0) ∧
    allNeg1 (acqTimeouts
      (RWLockWrite._aWriter.acquire (envUpTo 2) false RWLockWrite.init true
        (-1) c0).tr) = true :=
  ⟨claim_C5.1 envOK c0 (-7) (by decide),
   claim_C5.2.1 envOK c0 4 (by decide),
   claim_C5.2.2.1 envOK c0 9,
   claim_C5.2.2.2.1 envOK 4 c0,
   claim_C5.2.2.2.2.1 envOK c0,
   claim_C5.2.2.2.2.2.2.2.1 (envUpTo 2) false RWLockWrite.init (-1) c0
     (by decide)⟩

theorem rwrite_wacqTail_locked_irrel (env : Env) (dl : Option Int)
    (g g' : Bool) (lT : RWLockWrite.LockSt) (trT : List Ev) (c : Ctx) :
    (RWLockWrite._aWriter.acquireTail env dl g lT trT c).ok =
      (RWLockWrite._aWriter.acquireTail env dl g' lT trT c).ok ∧
    (RWLockWrite._aWriter.acquireTail env dl g lT trT c).lock =
      (RWLockWrite._aWriter.acquireTail env dl g' lT trT c).lock ∧
    (RWLockWrite._aWriter.acquireTail env dl g lT trT c).tr =
      (RWLockWrite._aWriter.acquireTail env dl g' lT trT c).tr ∧
    (RWLockWrite._aWriter.acquireTail env dl g lT trT c).c =
      (RWLockWrite._aWriter.acquireTail env dl g' lT trT c).c := by
  simp only [RWLockWrite._aWriter.acquireTail]
  repeat' split
  all_goals exact ⟨rfl, rfl, rfl, rfl⟩

/-- C7 counterexample: on the read-preferring reader guard, `acquire` never
inspects `_locked`; calling it a second time without an intervening
release on a guard whose flag is already true is not rejected — the call
returns true again and increments `read_count` from 1 to 2, mutating the
lock. -/
theorem claim_C7_counterexample :
    (RWLockRead._aReader.acquire envOK true rLock1 true (-1) c0).ok =
      true ∧
    (RWLockRead._aReader.acquire envOK true rLock1 true (-1)
        c0).lock.read_count = 2 ∧
    (RWLockRead._aReader.acquire envOK true rLock1 true (-1) c0).lock ≠
      rLock1 := by decide

/-- C7 (amended): a second `acquire` on a guard whose `_locked` flag is
already true is not rejected.  No `acquire` of any guard of any variant
reads the flag: the returned boolean, the resulting lock state, the
performed operations and the consumed oracle are identical whatever the
prior flag value, so the second call re-runs the full protocol and mutates
the lock's counters and mutexes exactly as a first call would. -/
theorem claim_C7 :
    (∀ env l b t c g g',
      (RWLockRead._aReader.acquire env g l b t c).ok =
        (RWLockRead._aReader.acquire env g' l b t c).ok ∧
      (RWLockRead._aReader.acquire env g l b t c).lock =
        (RWLockRead._aReader.acquire env g' l b t c).lock ∧
      (RWLockRead._aReader.acquire env g l b t c).tr =
        (RWLockRead._aReader.acquire env g' l b t c).tr ∧
      (RWLockRead._aReader.acquire env g l b t c).c =
        (RWLockRead._aReader.acquire env g' l b t c).c) ∧
    (∀ env l b t c g g',
      (RWLockRead._aWriter.acquire env g l b t c).ok =
        (RWLockRead._aWriter.acquire env g' l b t c).ok ∧
      (RWLockRead._aWriter.acquire env g l b t c).lock =
        (RWLockRead._aWriter.acquire env g' l b t c).lock ∧
      (RWLockRead._aWriter.acquire env g l b t c).tr =
        (RWLockRead._aWriter.acquire env g' l b t c).tr ∧
      (RWLockRead._aWriter.acquire env g l b t c).c =
        (RWLockRead._aWriter.acquire env g' l b t c).c) ∧
    (∀ env l b t c g g',
      (RWLockWrite._aReader.acquire env g l b t c).ok =
        (RWLockWrite._aReader.acquire env g' l b t c).ok ∧
      (RWLockWrite._aReader.acquire env g l b t c).lock =
        (RWLockWrite._aReader.acquire env g' l b t c).lock ∧
      (RWLockWrite._aReader.acquire env g l b t c).tr =
        (RWLockWrite._aReader.acquire env g' l b t c).tr ∧
      (RWLockWrite._aReader.acquire env g l b t c).c =
        (RWLockWrite._aReader.acquire env g' l b t c).c) ∧
    (∀ env l b t c g g',
      (RWLockWrite._aWriter.acquire env g l b t c).ok =
        (RWLockWrite._aWriter.acquire env g' l b t c).ok ∧
      (RWLockWrite._aWriter.acquire env g l b t c).lock =
        (RWLockWrite._aWriter.acquire env g' l b t c).lock ∧
      (RWLockWrite._aWriter.acquire env g l b t c).tr =
        (RWLockWrite._aWriter.acquire env g' l b t c).tr ∧
      (RWLockWrite._aWriter.acquire env g l b t c).c =
        (RWLockWrite._aWriter.acquire env g' l b t c).c) ∧
    (∀ env l b t c g g',
      (RWLockFair._aReader.acquire env g l b t c).ok =
        (RWLockFair._aReader.acquire env g' l b t c).ok ∧
      (RWLockFair._aReader.acquire env g l b t c).lock =
        (RWLockFair._aReader.acquire env g' l b t c).lock ∧
      (RWLockFair._aReader.acquire env g l b t c).tr =
        (RWLockFair._aReader.acquire env g' l b t c).tr ∧
      (RWLockFair._aReader.acquire env g l b t c).c =
        (RWLockFair._aReader.acquire env g' l b t c).c) ∧
    (∀ env l b t c g g',
      (RWLockFair._aWriter.acquire env g l b t c).ok =
        (RWLockFair._aWriter.acquire env g' l b t c).ok ∧
      (RWLockFair._aWriter.acquire env g l b t c).lock =
        (RWLockFair._aWriter.acquire env g' l b t c).lock ∧
      (RWLockFair._aWriter.acquire env g l b t c).tr =
        (RWLockFair._aWriter.acquire env g' l b t c).tr ∧
      (RWLockFair._aWriter.acquire env g l b t c).c =
        (RWLockFair._aWriter.acquire env g' l b t c).c) := by
  refine ⟨?_, ?_, ?_, ?_, ?_, ?_⟩ <;> intro env l b t c g g'
  · simp only [RWLockRead._aReader.acquire]
    repeat' split
    all_goals exact ⟨rfl, rfl, rfl, rfl⟩
  · exact ⟨rfl, rfl, rfl, rfl⟩
  · simp only [RWLockWrite._aReader.acquire]
    repeat' split
    all_goals exact ⟨rfl, rfl, rfl, rfl⟩
  · simp only [RWLockWrite._aWriter.acquire]
    repeat' split
    all_goals
      first
        | exact ⟨rfl, rfl, rfl, rfl⟩
        | exact rwrite_wacqTail_locked_irrel _ _ _ _ _ _ _
  · simp only [RWLockFair._aReader.acquire]
    repeat' split
    all_goals exact ⟨rfl, rfl, rfl, rfl⟩
  · simp only [RWLockFair._aWriter.acquire]
    repeat' split
    all_goals exact ⟨rfl, rfl, rfl, rfl⟩

/-- C9: for every lock variant, along any legal sequence of whole guard
operations from a fresh lock (acquires only on guards not already locked —
the non-reentrant usage contract — with releases on un-acquired guards
raising and changing nothing), the counters satisfy `read_count ≥ 0` and
`write_count ≥ 0` at every step, and whenever every guard is released the
counters are back to 0 and the exclusion mutex (`resource`, or `lock_write`
in the fair variant) is free. -/
theorem claim_C9 :
    (∀ nr nw ops,
      RWLockRead.LegalRun (RWLockRead.initSys nr nw) ops →
      0 ≤ (RWLockRead.run (RWLockRead.initSys nr nw) ops).lock.read_count ∧
      ((∀ g ∈ (RWLockRead.run (RWLockRead.initSys nr nw) ops).readers,
          g = false) →
       (∀ g ∈ (RWLockRead.run (RWLockRead.initSys nr nw) ops).writers,
          g = false) →
       (RWLockRead.run (RWLockRead.initSys nr nw) ops).lock.read_count = 0 ∧
       (RWLockRead.run (RWLockRead.initSys nr nw) ops).lock.resource =
         false)) ∧
    (∀ nr nw ops,
      RWLockWrite.LegalRun (RWLockWrite.initSys nr nw) ops →
      0 ≤ (RWLockWrite.run (RWLockWrite.initSys nr nw) ops).lock.read_count ∧
      0 ≤ (RWLockWrite.run (RWLockWrite.initSys nr nw)
            ops).lock.write_count ∧
      ((∀ g ∈ (RWLockWrite.run (RWLockWrite.initSys nr nw) ops).readers,
          g = false) →
       (∀ g ∈ (RWLockWrite.run (RWLockWrite.initSys nr nw) ops).writers,
          g = false) →
       (RWLockWrite.run (RWLockWrite.initSys nr nw) ops).lock.read_count =
         0 ∧
       (RWLockWrite.run (RWLockWrite.initSys nr nw) ops).lock.write_count =
         0 ∧
       (RWLockWrite.run (RWLockWrite.initSys nr nw) ops).lock.resource =
         false)) ∧
    (∀ nr nw ops,
      RWLockFair.LegalRun (RWLockFair.initSys nr nw) ops →
      0 ≤ (RWLockFair.run (RWLockFair.initSys nr nw) ops).lock.read_count ∧
      ((∀ g ∈ (RWLockFair.run (RWLockFair.initSys nr nw) ops).readers,
          g = false) →
       (∀ g ∈ (RWLockFair.run (RWLockFair.initSys nr nw) ops).writers,
          g = false) →
       (RWLockFair.run (RWLockFair.initSys nr nw) ops).lock.read_count = 0 ∧
       (RWLockFair.run (RWLockFair.initSys nr nw) ops).lock.lock_write =
         false)) := by
  refine ⟨?_, ?_, ?_⟩ <;> intro nr nw ops hrun
  · obtain ⟨h1, h2, h3, h4, h5⟩ :=
      RWLockRead.rread_inv_run ops (RWLockRead.initSys nr nw)
        (RWLockRead.rread_inv_init nr nw) hrun
    refine ⟨by omega, ?_⟩
    intro hra hwa
    have hrc : (RWLockRead.run (RWLockRead.initSys nr nw)
        ops).readers.count true = 0 :=
      List.count_eq_zero.mpr (fun hmem => by simpa using hra true hmem)
    have hwc : (RWLockRead.run (RWLockRead.initSys nr nw)
        ops).writers.count true = 0 :=
      List.count_eq_zero.mpr (fun hmem => by simpa using hwa true hmem)
    refine ⟨by omega, ?_⟩
    rcases hres : (RWLockRead.run (RWLockRead.initSys nr nw)
        ops).lock.resource
    · rfl
    · exact absurd (h5.mp hres) (by omega)
  · obtain ⟨h1, h2, h3, h4, h5, h6, h7, h8, h9⟩ :=
      RWLockWrite.rwrite_inv_run ops (RWLockWrite.initSys nr nw)
        (RWLockWrite.rwrite_inv_init nr nw) hrun
    refine ⟨by omega, by omega, ?_⟩
    intro hra hwa
    have hrc : (RWLockWrite.run (RWLockWrite.initSys nr nw)
        ops).readers.count true = 0 :=
      List.count_eq_zero.mpr (fun hmem => by simpa using hra true hmem)
    have hwc : (RWLockWrite.run (RWLockWrite.initSys nr nw)
        ops).writers.count true = 0 :=
      List.count_eq_zero.mpr (fun hmem => by simpa using hwa true hmem)
    refine ⟨by omega, by omega, ?_⟩
    rcases hres : (RWLockWrite.run (RWLockWrite.initSys nr nw)
        ops).lock.resource
    · rfl
    · exact absurd (h9.mp hres) (by omega)
  · obtain ⟨h1, h2, h3, h4, h5, h6⟩ :=
      RWLockFair.rfair_inv_run ops (RWLockFair.initSys nr nw)
        (RWLockFair.rfair_inv_init nr nw) hrun
    refine ⟨by omega, ?_⟩
    intro hra hwa
    have hrc : (RWLockFair.run (RWLockFair.initSys nr nw)
        ops).readers.count true = 0 :=
      List.count_eq_zero.mpr (fun hmem => by simpa using hra true hmem)
    have hwc : (RWLockFair.run (RWLockFair.initSys nr nw)
        ops).writers.count true = 0 :=
      List.count_eq_zero.mpr (fun hmem => by simpa using hwa true hmem)
    refine ⟨by omega, ?_⟩
    rcases hres : (RWLockFair.run (RWLockFair.initSys nr nw)
        ops).lock.lock_write
    · rfl
    · exact absurd (h6.mp hres) (by omega)

/-- Witness for C9: on each variant, the two-operation legal run "reader 0
acquires indefinitely, then releases" on a system with one reader and one
writer guard ends with the counters at 0 and the exclusion mutex free. -/
theorem claim_C9_witness :
    (0 ≤ (RWLockRead.run (RWLockRead.initSys 1 1)
        c9opsRead).lock.read_count ∧
      (RWLockRead.run (RWLockRead.initSys 1 1) c9opsRead).lock.read_count =
        0 ∧
      (RWLockRead.run (RWLockRead.initSys 1 1) c9opsRead).lock.resource =
        false) ∧
    (0 ≤ (RWLockWrite.run (RWLockWrite.initSys 1 1)
        c9opsWrite).lock.write_count ∧
      (RWLockWrite.run (RWLockWrite.initSys 1 1)
        c9opsWrite).lock.read_count = 0 ∧
      (RWLockWrite.run (RWLockWrite.initSys 1 1)
        c9opsWrite).lock.write_count = 0 ∧
      (RWLockWrite.run (RWLockWrite.initSys 1 1)
        c9opsWrite).lock.resource = false) ∧
    (0 ≤ (RWLockFair.run (RWLockFair.initSys 1 1)
        c9opsFair).lock.read_count ∧
      (RWLockFair.run (RWLockFair.initSys 1 1) c9opsFair).lock.read_count =
        0 ∧
      (RWLockFair.run (RWLockFair.initSys 1 1) c9opsFair).lock.lock_write =
        false) :=
  ⟨⟨(claim_C9.1 1 1 c9opsRead ⟨⟨by decide, rfl⟩, trivial, trivial⟩).1,
    (claim_C9.1 1 1 c9opsRead ⟨⟨by decide, rfl⟩, trivial, trivial⟩).2
      (by decide) (by decide)⟩,
   ⟨(claim_C9.2.1 1 1 c9opsWrite ⟨⟨by decide, rfl⟩, trivial, trivial⟩).2.1,
    (claim_C9.2.1 1 1 c9opsWrite ⟨⟨by decide, rfl⟩, trivial, trivial⟩).2.2
      (by decide) (by decide)⟩,
   ⟨(claim_C9.2.2 1 1 c9opsFair ⟨⟨by decide, rfl⟩, trivial, trivial⟩).1,
    (claim_C9.2.2 1 1 c9opsFair ⟨⟨by decide, rfl⟩, trivial, trivial⟩).2
      (by decide) (by decide)⟩⟩
